import Mathlib

/-!
Verification of the iherb-cli scraper core against its specification.

The Rust sources are shallowly embedded: pure functions become Lean
functions, machine floats (`f64`) become exact rationals (`ℚ`), fallible
code returns `Option`/`Except`, and the third-party HTML/CSS machinery is
abstracted as a `Dom` record whose fields hold the outcome of the exact
selector lookups the code performs.
-/

attribute [local semireducible] Rat.add Rat.sub Rat.mul

namespace Iherb

/-! ## String helpers (embedding of `str` operations used by the sources) -/

/-- Embedding of `str::starts_with`: does `cs` start with `needle`? -/
def startsWithChars : List Char → List Char → Bool
  | _, [] => true
  | [], _ :: _ => false
  | a :: as, b :: bs => a == b && startsWithChars as bs

/-- Embedding of `str::contains` (substring containment) on char lists. -/
def containsChars : List Char → List Char → Bool
  | [], needle => needle.isEmpty
  | hay@(_ :: rest), needle => startsWithChars hay needle || containsChars rest needle

/-- Embedding of `str::contains` on strings. -/
def containsSubstr (hay needle : String) : Bool :=
  containsChars hay.data needle.data

/-- Numeric value of a digit-char list, mirroring how a decimal literal is read. -/
def digitsVal (ds : List Char) : ℕ :=
  ds.foldl (fun a c => a * 10 + (c.toNat - 48)) 0

/-- Are all characters ASCII digits (`char::is_ascii_digit`)? -/
def allDigits (ds : List Char) : Bool :=
  ds.all (fun c => c.isDigit)

/-- Embedding of Rust `str::parse::<f64>()` restricted to the plain decimal
grammar (optional sign, integer part, optional fractional part; at least one
digit); floats are modelled exactly as rationals. -/
def parseF64Chars (cs : List Char) : Option ℚ :=
  let (neg, cs) :=
    match cs with
    | '-' :: rest => (true, rest)
    | '+' :: rest => (false, rest)
    | _ => (false, cs)
  let intPart := cs.takeWhile (fun c => c ≠ '.')
  let rest := cs.dropWhile (fun c => c ≠ '.')
  let mkVal (ip fp : List Char) : ℚ :=
    let v : ℚ := mkRat ((digitsVal ip * 10 ^ fp.length + digitsVal fp : ℕ) : ℤ) (10 ^ fp.length)
    if neg then -v else v
  match rest with
  | [] =>
    if allDigits intPart && !intPart.isEmpty then some (mkVal intPart []) else none
  | '.' :: frac =>
    if allDigits intPart && allDigits frac && !(intPart.isEmpty && frac.isEmpty) then
      some (mkVal intPart frac)
    else none
  | _ => none

/-- `str::parse::<f64>()` on a string. -/
def parseF64 (s : String) : Option ℚ :=
  parseF64Chars s.data

/-- Embedding of Rust `str::parse::<u32>()` on a digit string. -/
def parseU32 (cs : List Char) : Option ℕ :=
  if allDigits cs && !cs.isEmpty && digitsVal cs < 2 ^ 32 then some (digitsVal cs) else none

/-! ## `scraper/helpers.rs` -/

/-- The character filter of `parse_price_str`: digits, `.` and `,` are kept. -/
def keepPriceChar (c : Char) : Bool :=
  c.isDigit || c == '.' || c == ','

/-- Index of the last occurrence of `c` in `cs` (embedding of `str::rfind`);
defaults to 0, which is only used when the character is known to occur. -/
def lastIdxOf (c : Char) (cs : List Char) : ℕ :=
  match cs.reverse.indexOf? c with
  | some i => cs.length - 1 - i
  | none => 0

/-- Embedding of `str::replacen(from, to, 1)` for single characters. -/
def replaceFirstChar (f t : Char) : List Char → List Char
  | [] => []
  | c :: rest => if c == f then t :: rest else c :: replaceFirstChar f t rest

/-- The suffix of `cs` strictly after the last occurrence of `c`. -/
def afterLast (c : Char) (cs : List Char) : List Char :=
  (cs.reverse.takeWhile (fun d => d ≠ c)).reverse

/-- Embedding of `helpers::parse_price_str`: strip everything but digits, `.`
and `,`; if both separators appear the later one is the decimal separator;
if only commas appear, the comma is a thousands separator exactly when three
digits follow the last comma; finally parse as a float. -/
def parse_price_str (s : String) : Option ℚ :=
  let cleaned := s.data.filter keepPriceChar
  if cleaned.isEmpty then none
  else
    let hasDot := cleaned.contains '.'
    let hasComma := cleaned.contains ','
    let normalized :=
      if hasDot && hasComma then
        if lastIdxOf '.' cleaned < lastIdxOf ',' cleaned then
          replaceFirstChar ',' '.' (cleaned.filter (fun c => c ≠ '.'))
        else
          cleaned.filter (fun c => c ≠ ',')
      else if hasComma then
        let afterComma := afterLast ',' cleaned
        if afterComma.length == 3 && allDigits afterComma then
          cleaned.filter (fun c => c ≠ ',')
        else
          replaceFirstChar ',' '.' cleaned
      else cleaned
    parseF64Chars normalized

/-- Embedding of `helpers::parse_review_count`: drop commas, keep digits,
parse as `u32`. -/
def parse_review_count (text : String) : Option ℕ :=
  parseU32 ((text.data.filter (fun c => c ≠ ',')).filter (fun c => c.isDigit))

/-- Embedding of `helpers::is_not_found_page`. -/
def is_not_found_page (html : String) : Bool :=
  containsSubstr html ("Page Not Found")
    || containsSubstr html ("<title>404</title>")
    || containsSubstr html ("404 Not Found")

/-- Embedding of `helpers::detect_currency_from_text` (leading-symbol table). -/
def detect_currency_from_text (text : String) : Option String :=
  let t := text.trim.data
  if startsWithChars t ['$'] then some ("USD")
  else if startsWithChars t ['€'] then some ("EUR")
  else if startsWithChars t ['£'] then some ("GBP")
  else if startsWithChars t ['C', 'H', 'F'] then some ("CHF")
  else if startsWithChars t ['C', 'A', '$'] || startsWithChars t ['C', '$'] then some ("CAD")
  else if startsWithChars t ['A', '$'] || startsWithChars t ['A', 'U', '$'] then some ("AUD")
  else if startsWithChars t ['¥'] then some ("JPY")
  else if startsWithChars t ['₩'] then some ("KRW")
  else none

/-! ## `error.rs` -/

/-- Embedding of `IherbError` (variants relevant to the embedded code). -/
inductive IherbError where
  | BrowserLaunch (msg : String)
  | Navigation (msg : String)
  | CloudflareBlocked (attempts : ℕ)
  | ProductNotFound (id : String)
  | ChromeDownload (msg : String)
  | Cache (msg : String)
  | Network (msg : String)
  | Io (msg : String)
  | Json (msg : String)
deriving DecidableEq, Repr

/-! ## `model.rs` -/

/-- Embedding of `model::Nutrient`. -/
structure Nutrient where
  name : String
  amount : String
  daily_value : Option String
deriving DecidableEq, Repr

/-- Embedding of `model::SupplementFacts`. -/
structure SupplementFacts where
  serving_size : Option String
  servings_per_container : Option String
  nutrients : List Nutrient
deriving DecidableEq, Repr

/-- Embedding of `model::ReviewDistribution`. -/
structure ReviewDistribution where
  five_star : Option ℚ
  four_star : Option ℚ
  three_star : Option ℚ
  two_star : Option ℚ
  one_star : Option ℚ
deriving DecidableEq, Repr

/-- Embedding of `model::ProductSummary`. -/
structure ProductSummary where
  name : String
  brand : String
  price : ℚ
  original_price : Option ℚ
  currency : String
  rating : Option ℚ
  review_count : Option ℕ
  product_url : String
  product_id : String
  in_stock : Bool
deriving DecidableEq, Repr

/-- Embedding of `model::ProductDetail`. -/
structure ProductDetail where
  name : String
  brand : String
  price : ℚ
  original_price : Option ℚ
  currency : String
  rating : Option ℚ
  review_count : Option ℕ
  product_url : String
  product_id : String
  in_stock : Bool
  description : Option String
  product_code : Option String
  upc : Option String
  ingredients : Option String
  supplement_facts : Option SupplementFacts
  suggested_use : Option String
  warnings : Option String
  shipping_weight : Option String
  category_breadcrumb : Option (List String)
  review_distribution : Option ReviewDistribution
deriving DecidableEq, Repr

/-- Embedding of `model::SearchResult`. -/
structure SearchResult where
  query : String
  total_results : Option ℕ
  products : List ProductSummary
deriving DecidableEq, Repr

/-! ## JSON values (`serde_json::Value`) -/

/-- Embedding of `serde_json::Value`; numbers are modelled exactly as `ℚ`. -/
inductive Json where
  | null
  | bool (b : Bool)
  | num (q : ℚ)
  | str (s : String)
  | arr (xs : List Json)
  | obj (fields : List (String × Json))

/-- `Value::get(key)`: field lookup on an object, `None` on other values. -/
def jGet (j : Json) (key : String) : Option Json :=
  match j with
  | .obj fields => (fields.find? (fun p => p.fst == key)).map (fun p => p.snd)
  | _ => none

/-- `Value::as_str()`. -/
def jAsStr : Json → Option String
  | .str s => some s
  | _ => none

/-- `Value::as_f64()`: any JSON number viewed as a float (exactly, as `ℚ`). -/
def jAsF64 : Json → Option ℚ
  | .num q => some q
  | _ => none

/-- `Value::as_u64()`: a number that is a non-negative integer below `2^64`. -/
def jAsU64 : Json → Option ℕ
  | .num q => if q.den = 1 ∧ 0 ≤ q.num ∧ q.num < 2 ^ 64 then some q.num.toNat else none
  | _ => none

/-- `Value::as_bool()`. -/
def jAsBool : Json → Option Bool
  | .bool b => some b
  | _ => none

/-- `Value::as_array()`. -/
def jAsArr : Json → Option (List Json)
  | .arr xs => some xs
  | _ => none

/-- The recurring pattern
`v.as_str().and_then(|s| s.parse::<f64>().ok()).or_else(|| v.as_f64())`:
a price serialized as either a JSON string or a JSON number. -/
def jNumOrStr (v : Json) : Option ℚ :=
  (jAsStr v >>= parseF64) <|> jAsF64 v

/-- The analogous pattern for `u32` review counts:
`v.as_str().and_then(|s| s.parse::<u32>().ok()).or_else(|| v.as_u64().map(|n| n as u32))`
(the `as u32` cast truncates modulo `2^32`). -/
def jU32OrStr (v : Json) : Option ℕ :=
  (jAsStr v >>= fun s => parseU32 s.data) <|> (jAsU64 v).map (fun n => n % 2 ^ 32)

/-! ## `scraper/product.rs`: price extraction from JSON-LD offers -/

/-- Embedding of `product::extract_prices_from_offers`: returns
`(price, original_price, currency)`. The top-level `offers.price` is tried
first; only when it is absent or unparsable is the `priceSpecification`
array consulted. -/
def extract_prices_from_offers (offers : Option Json) : ℚ × Option ℚ × String :=
  match offers with
  | none => (0, none, "USD")
  | some o =>
    let top_price := jGet o ("price") >>= jNumOrStr
    let top_currency := jGet o ("priceCurrency") >>= jAsStr
    match top_price with
    | some price => (price, none, top_currency.getD ("USD"))
    | none =>
      match jGet o ("priceSpecification") >>= jAsArr with
      | some specs =>
        let st := specs.foldl
          (fun (acc : Option ℚ × Option ℚ × Option String) spec =>
            let spec_price := jGet spec ("price") >>= jNumOrStr
            let spec_currency := jGet spec ("priceCurrency") >>= jAsStr
            let is_strikethrough :=
              ((jGet spec ("priceType") >>= jAsStr).map
                (fun s => containsSubstr s ("StrikethroughPrice"))).getD false
            if is_strikethrough then (acc.1, spec_price, acc.2.2)
            else (spec_price, acc.2.1, if acc.2.2.isNone then spec_currency else acc.2.2))
          (none, none, none)
        let price := st.1.getD 0
        let original := st.2.1.filter (fun op => decide (price < op))
        let currency := (st.2.2 <|> top_currency).getD ("USD")
        (price, original, currency)
      | none => (0, none, top_currency.getD ("USD"))

/-! ## `scraper/product.rs`: structured parsers -/

/-- Embedding of `product::parse_from_json_ld`. -/
def parse_from_json_ld (data : Json) (product_id base_url : String) :
    Option ProductDetail := do
  let name ← jGet data ("name") >>= jAsStr
  if name = "" then none
  else
    let brand := ((jGet data ("brand")) >>= fun b =>
      (jGet b ("name") >>= jAsStr) <|> jAsStr b).getD ""
    let offers := jGet data ("offers")
    let pr := extract_prices_from_offers offers
    let in_stock := ((offers >>= fun o => jGet o ("availability") >>= jAsStr).map
      (fun s => containsSubstr s ("InStock"))).getD true
    let agg := jGet data ("aggregateRating")
    let rating := agg >>= fun a => jGet a ("ratingValue") >>= jNumOrStr
    let review_count := agg >>= fun a => jGet a ("reviewCount") >>= jU32OrStr
    let description := jGet data ("description") >>= jAsStr
    let product_code := (jGet data ("sku") <|> jGet data ("mpn")) >>= jAsStr
    let upc := (jGet data ("gtin12") <|> jGet data ("gtin13")) >>= jAsStr
    let product_url :=
      (jGet data ("url") >>= jAsStr).getD (base_url ++ "/pr/p/" ++ product_id)
    some {
      name := name
      brand := brand
      price := pr.1
      original_price := pr.2.1
      currency := pr.2.2
      rating := rating
      review_count := review_count
      product_url := product_url
      product_id := product_id
      in_stock := in_stock
      description := description
      product_code := product_code
      upc := upc
      ingredients := none
      supplement_facts := none
      suggested_use := none
      warnings := none
      shipping_weight := none
      category_breadcrumb := none
      review_distribution := none }

/-- Embedding of `product::parse_from_js_globals`. -/
def parse_from_js_globals (globals : Json) (product_id base_url currency : String) :
    Option ProductDetail :=
  let pd := jGet globals ("productDetails")
  let ihr := jGet globals ("ihrProduct")
  let name := (((ihr >>= fun p => jGet p ("prdNm"))
    <|> (pd >>= fun p => jGet p ("name"))) >>= jAsStr).getD ""
  if name = "" then none
  else
    let brand := ((ihr >>= fun p => jGet p ("brndNm")) >>= jAsStr).getD ""
    let price_str := ((ihr >>= fun p => jGet p ("prc")) >>= jAsStr).getD ("0")
    let price := (parse_price_str price_str).getD 0
    let product_code := (((pd >>= fun p => jGet p ("code"))
      <|> (ihr >>= fun p => jGet p ("prtNum"))) >>= jAsStr)
    some {
      name := name
      brand := brand
      price := price
      original_price := none
      currency := currency
      rating := none
      review_count := none
      product_url := base_url ++ "/pr/p/" ++ product_id
      product_id := product_id
      in_stock := true
      description := none
      product_code := product_code
      upc := none
      ingredients := none
      supplement_facts := none
      suggested_use := none
      warnings := none
      shipping_weight := none
      category_breadcrumb := none
      review_distribution := none }

/-- Embedding of `product::parse_from_next_data`. -/
def parse_from_next_data (data : Json) (product_id base_url : String) :
    Option ProductDetail := do
  let props ← jGet data ("props")
  let props ← jGet props ("pageProps")
  let product ← (jGet props ("product")) <|> (jGet props ("productData"))
    <|> (jGet props ("initialProduct"))
  let name := ((jGet product ("title") <|> jGet product ("name")) >>= jAsStr).getD ""
  if name = "" then none
  else
    let brand := (((jGet product ("brandName"))
      <|> (jGet product ("brand") >>= fun b => jGet b ("name"))) >>= jAsStr).getD ""
    let price := ((jGet product ("price") <|> jGet product ("discountPrice"))
      >>= jAsF64).getD 0
    let original_price := ((jGet product ("listPrice") <|> jGet product ("retailPrice"))
      >>= jAsF64).filter (fun p => decide (price < p))
    let currency := (jGet product ("currency") >>= jAsStr).getD ("USD")
    let rating := (jGet product ("rating") <|> jGet product ("averageRating")) >>= jAsF64
    let review_count := ((jGet product ("reviewCount") <|> jGet product ("numberOfReviews"))
      >>= jAsU64).map (fun n => n % 2 ^ 32)
    let in_stock := ((jGet product ("inStock") <|> jGet product ("isInStock"))
      >>= jAsBool).getD true
    some {
      name := name
      brand := brand
      price := price
      original_price := original_price
      currency := currency
      rating := rating
      review_count := review_count
      product_url := base_url ++ "/pr/p/" ++ product_id
      product_id := product_id
      in_stock := in_stock
      description := jGet product ("description") >>= jAsStr
      product_code := (jGet product ("partNumber") <|> jGet product ("productCode")) >>= jAsStr
      upc := jGet product ("upc") >>= jAsStr
      ingredients := jGet product ("ingredients") >>= jAsStr
      supplement_facts := none
      suggested_use := jGet product ("suggestedUse") >>= jAsStr
      warnings := jGet product ("warnings") >>= jAsStr
      shipping_weight := jGet product ("shippingWeight") >>= jAsStr
      category_breadcrumb := none
      review_distribution := none }

/-! ## DOM abstraction

The `scraper` crate's HTML/CSS machinery is third-party; it is abstracted as
a record whose fields hold the outcome of exactly the selector lookups the
code performs on the parsed document, one field per lookup. `extract_text`
never yields an empty string (it skips empty matches), but the record does
not enforce that; theorems quantify over all records. -/

/-- The first `input#share-email-model` element's price data attributes. -/
structure ShareEmailInput where
  listPrice : Option String
  discountPrice : Option String
deriving DecidableEq, Repr

/-- Abstraction of a fetched product page: the raw HTML string plus the
outcome of each selector lookup `parse_from_html`/`enrich_from_html`
performs against the parsed document. -/
structure Dom where
  /-- the raw page HTML (used by `is_not_found_page` and the
  `html.contains("Out of Stock")` fallback) -/
  html : String
  /-- first nonempty text among the selectors of
  `h1#name, h1[data-testid=product-name], h1` -/
  h1NameText : Option String
  /-- first nonempty text for the brand selectors (`#brand a span bdi`, ...) -/
  brandText : Option String
  /-- the first `input#share-email-model` element, when present -/
  shareEmail : Option ShareEmailInput
  /-- first nonempty text for
  `.purchase-option-one-time .list-price, #product-price .list-price, .price` -/
  listPriceText : Option String
  /-- title attribute of the first `a.stars.scroll-to, a.stars` element -/
  starsTitle : Option String
  /-- first nonempty text for `a.rating-count span` -/
  ratingCountText : Option String
  /-- first nonempty text for `#stock-status .stock-status-content strong` -/
  stockStatusText : Option String
  /-- `extract_spec(doc, "Product Code")` -/
  specProductCode : Option String
  /-- `extract_spec(doc, "UPC")` -/
  specUpc : Option String
  /-- `extract_spec(doc, "Shipping Weight")` -/
  specShippingWeight : Option String
  /-- content attribute of the first `meta[itemprop=priceCurrency]` element -/
  metaPriceCurrency : Option String
  /-- joined trimmed text of the first `span.price bdi, div.price bdi,
  .product-price bdi` element -/
  priceBdiText : Option String
  /-- first nonempty text for `.prodOverviewIngred` -/
  ingredientsText : Option String
  /-- per `#product-overview h3` element: its joined text and the flattened
  text of its first sibling `div`, when one exists -/
  overviewSections : List (String × Option String)
  /-- result of `parse_supplement_facts_html(doc)` -/
  supplementFacts : Option SupplementFacts
  /-- result of `parse_review_distribution_html(doc)` -/
  reviewDistribution : Option ReviewDistribution
deriving DecidableEq, Repr

/-- Embedding of `helpers::detect_currency_from_html`: a currency meta tag
first, else a leading-symbol match on the first price text. -/
def detect_currency_from_html (dom : Dom) : Option String :=
  let fromMeta :=
    match dom.metaPriceCurrency with
    | some code =>
      let code := code.trim.toUpper
      if code ≠ "" then some code else none
    | none => none
  match fromMeta with
  | some code => some code
  | none => dom.priceBdiText >>= detect_currency_from_text

/-- Embedding of `product::extract_rating_from_stars`: the number before the
first `/` of the stars title (format `4.8/5 - 42,328 Reviews`). -/
def extract_rating_from_stars (dom : Dom) : Option ℚ :=
  dom.starsTitle >>= fun title => parseF64 ((title.splitOn ("/")).headD "").trim

/-- Embedding of `product::extract_prices_from_input`: prices from the
hidden share-email input's data attributes. -/
def extract_prices_from_input (dom : Dom) : Option (ℚ × Option ℚ) :=
  match dom.shareEmail with
  | none => none
  | some el =>
    let list_price := el.listPrice >>= parse_price_str
    let disc_price := el.discountPrice >>= parse_price_str
    match disc_price, list_price with
    | some disc, some list =>
      if decide (disc < list) then some (disc, some list) else some (disc, none)
    | some disc, none => some (disc, none)
    | none, some list => some (list, none)
    | none, none => none

/-- Embedding of `product::enrich_pricing`: reconcile structural prices with
the DOM list/discount prices. -/
def enrich_pricing (dom : Dom) (p : ProductDetail) : ProductDetail :=
  if p.original_price.isSome && decide (0 < p.price) then p
  else
    match dom.shareEmail with
    | none => p
    | some el =>
      let list_price := el.listPrice >>= parse_price_str
      let disc_price := el.discountPrice >>= parse_price_str
      match list_price, disc_price with
      | some list, some disc =>
        if decide (disc < list) then
          let p1 := { p with original_price := some list }
          if decide (|p1.price - list| < mkRat 1 100) || decide (p1.price = 0) then
            { p1 with price := disc }
          else p1
        else p
      | _, _ => p

/-- Embedding of `product::enrich_rating_and_reviews`. -/
def enrich_rating_and_reviews (dom : Dom) (p : ProductDetail) : ProductDetail :=
  let p :=
    if p.rating.isNone then { p with rating := extract_rating_from_stars dom } else p
  if p.review_count.isNone then
    match dom.ratingCountText with
    | some text => { p with review_count := parse_review_count text }
    | none => p
  else p

/-- Embedding of `product::enrich_product_specs`. -/
def enrich_product_specs (dom : Dom) (p : ProductDetail) : ProductDetail :=
  let p :=
    if p.shipping_weight.isNone then
      { p with shipping_weight := dom.specShippingWeight }
    else p
  let p :=
    if p.product_code.isNone then { p with product_code := dom.specProductCode } else p
  if p.upc.isNone then { p with upc := dom.specUpc } else p

/-- Embedding of `product::assign_section_by_heading`. -/
def assign_section_by_heading (heading content : String) (p : ProductDetail) :
    ProductDetail :=
  if containsSubstr heading ("suggested use") && p.suggested_use.isNone then
    { p with suggested_use := some content }
  else if containsSubstr heading ("warning") && p.warnings.isNone then
    { p with warnings := some content }
  else if containsSubstr heading ("description") && p.description.isNone then
    { p with description := some content }
  else p

/-- One iteration of the `#product-overview h3` loop of
`product::parse_overview_sections`: a heading whose sibling `div` text is
missing or empty is skipped (`continue`). -/
def overviewStep (p : ProductDetail) (hc : String × Option String) : ProductDetail :=
  match hc.snd with
  | some content =>
    if content ≠ "" then assign_section_by_heading hc.fst.trim.toLower content p
    else p
  | none => p

/-- Embedding of `product::parse_overview_sections`: ingredients from
`.prodOverviewIngred`, then the overview `h3` headings with their sibling
`div` text. -/
def parse_overview_sections (dom : Dom) (p : ProductDetail) : ProductDetail :=
  let p :=
    if p.ingredients.isNone then
      match dom.ingredientsText with
      | some text => { p with ingredients := some text }
      | none => p
    else p
  dom.overviewSections.foldl overviewStep p

/-- The brand-filling step at the top of `product::enrich_from_html`. -/
def enrich_brand (dom : Dom) (p : ProductDetail) : ProductDetail :=
  if p.brand = "" then
    match dom.brandText with
    | some brand => { p with brand := brand }
    | none => p
  else p

/-- Embedding of `product::enrich_from_html`: the DOM enrichment pass that
fills fields a structural source never carries. -/
def enrich_from_html (dom : Dom) (p : ProductDetail) : ProductDetail :=
  let p := enrich_brand dom p
  let p := enrich_pricing dom p
  let p := enrich_rating_and_reviews dom p
  let p :=
    match dom.stockStatusText with
    | some stock_text => { p with in_stock := containsSubstr stock_text.toLower ("in stock") }
    | none => p
  let p := enrich_product_specs dom p
  let p := parse_overview_sections dom p
  let p :=
    if p.supplement_facts.isNone then
      { p with supplement_facts := dom.supplementFacts }
    else p
  if p.review_distribution.isNone then
    { p with review_distribution := dom.reviewDistribution }
  else p

/-- Embedding of `product::parse_from_html`: the DOM-scraping fallback,
including the not-found gates. -/
def parse_from_html (dom : Dom) (product_id base_url currency : String) :
    Except IherbError ProductDetail :=
  if is_not_found_page dom.html then .error (.ProductNotFound product_id)
  else
    let name := dom.h1NameText.getD ""
    if name = "" || name = "Unknown Product" then .error (.ProductNotFound product_id)
    else
      let pr :=
        match extract_prices_from_input dom with
        | some pp => pp
        | none => ((dom.listPriceText >>= parse_price_str).getD 0, none)
      let rating := extract_rating_from_stars dom
      let review_count := dom.ratingCountText >>= parse_review_count
      let in_stock :=
        match dom.stockStatusText with
        | some s => containsSubstr s.toLower ("in stock")
        | none => !containsSubstr dom.html ("Out of Stock")
      let detected_currency := (detect_currency_from_html dom).getD currency
      let product : ProductDetail := {
        name := name
        brand := dom.brandText.getD ""
        price := pr.1
        original_price := pr.2
        currency := detected_currency
        rating := rating
        review_count := review_count
        product_url := base_url ++ "/pr/p/" ++ product_id
        product_id := product_id
        in_stock := in_stock
        description := none
        product_code := dom.specProductCode
        upc := dom.specUpc
        ingredients := none
        supplement_facts := dom.supplementFacts
        suggested_use := none
        warnings := none
        shipping_weight := dom.specShippingWeight
        category_breadcrumb := none
        review_distribution := dom.reviewDistribution }
      .ok (parse_overview_sections dom product)

/-- Embedding of `product::extract_product`: the strategy cascade JSON-LD →
JS globals → page-data blob → DOM, with the DOM enrichment pass applied to
the first two. The three structured inputs model `extract_json_ld(html)`,
`extract_js_globals(page)` and `extract_next_data(page)`. -/
def extract_product (jsonLd jsGlobals nextData : Option Json) (dom : Dom)
    (product_id base_url currency : String) : Except IherbError ProductDetail :=
  match jsonLd >>= fun j => parse_from_json_ld j product_id base_url with
  | some p => .ok (enrich_from_html dom p)
  | none =>
    match jsGlobals >>= fun g => parse_from_js_globals g product_id base_url currency with
    | some p => .ok (enrich_from_html dom p)
    | none =>
      match nextData >>= fun d => parse_from_next_data d product_id base_url with
      | some p => .ok p
      | none => parse_from_html dom product_id base_url currency

/-! ## `scraper/search.rs`: product summary construction -/

/-- Embedding of the search-local `search::parse_price`: keep only digits
and `.`, then parse as a float. -/
def parse_price (s : String) : Option ℚ :=
  parseF64Chars (s.data.filter (fun c => c.isDigit || c == '.'))

/-- Embedding of `search::extract_id_from_url`: the last all-digit path
segment. -/
def extract_id_from_url (url : String) : Option String :=
  (url.splitOn ("/")).reverse.find?
    (fun segment => allDigits segment.data && !segment.isEmpty)

/-- Embedding of `search::parse_product_summary_json`: one item of the
page-data blob's product array. -/
def parse_product_summary_json (item : Json) (base_url : String) :
    Option ProductSummary := do
  let name ← (jGet item ("title") <|> jGet item ("name")) >>= jAsStr
  let brand := ((jGet item ("brandName")
    <|> ((jGet item ("brand") >>= fun b => jGet b ("name")) <|> jGet item ("brand")))
    >>= jAsStr).getD ""
  let product_id ← (jGet item ("id") <|> jGet item ("productId")) >>= fun v =>
    jAsStr v <|> (jAsU64 v).map (fun n => toString n)
  let price := ((jGet item ("price") <|> jGet item ("discountPrice")) >>= jAsF64).getD 0
  let original_price := ((jGet item ("listPrice") <|> jGet item ("retailPrice"))
    >>= jAsF64).filter (fun p => decide (price < p))
  let currency := (jGet item ("currency") >>= jAsStr).getD ("USD")
  let rating := jGet item ("rating") >>= jAsF64
  let review_count := (jGet item ("reviewCount") >>= jAsU64).map (fun n => n % 2 ^ 32)
  let in_stock := (jGet item ("inStock") >>= jAsBool).getD true
  let product_url := (((jGet item ("url") <|> jGet item ("productUrl")) >>= jAsStr).map
    (fun u => if u.startsWith ("http") then u else base_url ++ u)).getD
    (base_url ++ "/pr/p/" ++ product_id)
  some {
    name := name
    brand := brand
    price := price
    original_price := original_price
    currency := currency
    rating := rating
    review_count := review_count
    product_url := product_url
    product_id := product_id
    in_stock := in_stock }

/-- The data attributes of the `a.absolute-link.product-link, a.product-link`
element inside a result card. -/
structure LinkAttrs where
  dataProductId : Option String
  dataGaProductId : Option String
  href : Option String
  title : Option String
  dataGaBrandName : Option String
  dataGaDiscountPrice : Option String
  dataGaIsOutOfStock : Option String
deriving DecidableEq, Repr

/-- Abstraction of one `div.product-cell-container` result card: the
outcome of each selector/attribute lookup the card loop of
`search::parse_search_from_html` performs. -/
structure Card where
  /-- the first product link inside the card, when present -/
  link : Option LinkAttrs
  /-- nonempty content attribute of `meta[itemprop=price]` -/
  metaPriceContent : Option String
  /-- nonempty content attribute of `div.product-title` -/
  productTitleContent : Option String
  /-- first nonempty text of `div.product-title bdi, div.product-title` -/
  productTitleText : Option String
  /-- first nonempty text of `span.price-olp bdi, span.price-olp` -/
  priceOlpText : Option String
  /-- title attribute of the first `a.stars` element -/
  starsTitle : Option String
  /-- first nonempty text of `a.rating-count span` -/
  ratingCountText : Option String
  /-- `data-is-out-of-stock` attribute of the first `div.product` element -/
  productDataIsOutOfStock : Option String
deriving DecidableEq, Repr

/-- Embedding of the per-card summary construction in the card loop of
`search::parse_search_from_html`; a card missing both an extractable name
and an identifier yields no summary (the card is dropped). -/
def parse_card (card : Card) (base_url detected_currency : String) :
    Option ProductSummary :=
  let la := card.link
  let product_id := ((la >>= fun a => a.dataProductId <|> a.dataGaProductId)
    <|> ((la >>= fun a => a.href) >>= extract_id_from_url))
  let name := card.productTitleContent <|> card.productTitleText
    <|> (la >>= fun a => a.title)
  let brand := la >>= fun a => a.dataGaBrandName
  let price := ((card.metaPriceContent >>= parse_price)
    <|> ((la >>= fun a => a.dataGaDiscountPrice) >>= parse_price)).getD 0
  let original_price := (card.priceOlpText >>= parse_price).filter
    (fun p => decide (price < p))
  let rating := card.starsTitle >>= fun t => parseF64 ((t.splitOn ("/")).headD "").trim
  let review_count := card.ratingCountText >>= parse_review_count
  let in_stock := ((card.productDataIsOutOfStock.map (fun s => s.toLower != "true"))
    <|> ((la >>= fun a => a.dataGaIsOutOfStock).map
      (fun s => s.toLower != "true"))).getD true
  let product_url := ((la >>= fun a => a.href)).getD
    (match product_id with
     | some id => base_url ++ "/pr/p/" ++ id
     | none => "")
  match name, product_id with
  | some name, some id =>
    some {
      name := name
      brand := brand.getD ""
      price := price
      original_price := original_price
      currency := detected_currency
      rating := rating
      review_count := review_count
      product_url := product_url
      product_id := id
      in_stock := in_stock }
  | _, _ => none

/-- Embedding of `search::parse_search_from_next_data`. -/
def parse_search_from_next_data (data : Json) (query base_url : String) :
    Option SearchResult := do
  let props ← jGet data ("props")
  let props ← jGet props ("pageProps")
  let products_arr ← (jGet props ("products") <|> jGet props ("searchResults")
    <|> jGet props ("items")) >>= jAsArr
  let total := ((jGet props ("totalResults") <|> jGet props ("totalCount"))
    >>= jAsU64).map (fun n => n % 2 ^ 32)
  let products := products_arr.filterMap
    (fun item => parse_product_summary_json item base_url)
  if products.isEmpty then none
  else some { query := query, total_results := total, products := products }

/-! ## `cli.rs`: sort order -/

/-- Embedding of `cli::SortOrder`. -/
inductive SortOrder where
  | Relevance
  | PriceAsc
  | PriceDesc
  | Rating
  | BestSelling
deriving DecidableEq, Repr

/-- Embedding of `SortOrder::as_cache_key`. -/
def SortOrder.as_cache_key : SortOrder → String
  | .Relevance => "relevance"
  | .PriceAsc => "price-asc"
  | .PriceDesc => "price-desc"
  | .Rating => "rating"
  | .BestSelling => "best-selling"

/-! ## `cache.rs`

The filesystem is modelled as a map from paths to entries carrying the
last-modified time (seconds) and the stored content; `SystemTime::now()` is
an explicit `now` parameter. Writes are modelled as pure map updates (the
caller treats write failures as non-fatal). `read_cached`/`write_cached`
are generic over the stored record type and its serde decode/encode, just
as the Rust functions are generic over `T: DeserializeOwned`/`Serialize`. -/

/-- A cache artifact file: filesystem modification time plus content. -/
structure FsEntry (β : Type) where
  modified : ℕ
  content : β
deriving DecidableEq, Repr

/-- Embedding of the `Cache` struct. -/
structure Cache where
  dir : String
  read_enabled : Bool
deriving DecidableEq, Repr

/-- `Cache::new`: when `no_cache` is true, reads are skipped but writes
still happen. -/
def Cache.new (cache_dir : String) (no_cache : Bool) : Cache :=
  { dir := cache_dir, read_enabled := !no_cache }

/-- `PRODUCT_TTL`: 24 hours, in seconds. -/
def PRODUCT_TTL : ℕ := 24 * 60 * 60

/-- `SEARCH_TTL`: 1 hour, in seconds. -/
def SEARCH_TTL : ℕ := 60 * 60

/-- Embedding of `Cache::search_key`: the cache key is a 16-hex-character
SHA-256 digest over the query bytes, the sort order's cache-key token and
the optional category; the third-party digest is modelled by its input
string. The requested limit is not part of the hashed input. -/
def search_key (query : String) (sort : SortOrder) (category : Option String) : String :=
  query ++ sort.as_cache_key ++ (match category with | some cat => cat | none => "")

/-- Embedding of `Cache::read_cached`: stat the artifact, compare its age
against the freshness window, then deserialize; any failure is a miss. -/
def read_cached {α β : Type} (fs : String → Option (FsEntry β)) (now : ℕ)
    (path : String) (ttl : ℕ) (decode : β → Option α) : Option α := do
  let entry ← fs path
  if now < entry.modified then none
  else if now - entry.modified > ttl then none
  else decode entry.content

/-- Embedding of `Cache::write_cached` as a filesystem update (the write
itself is best-effort I/O in the source). -/
def write_cached {β : Type} (fs : String → Option (FsEntry β)) (now : ℕ)
    (path : String) (content : β) : String → Option (FsEntry β) :=
  fun p => if p = path then some { modified := now, content := content } else fs p

/-- `Cache::get_product`: skipped entirely when reads are disabled. -/
def Cache.get_product {α β : Type} (c : Cache) (fs : String → Option (FsEntry β))
    (now : ℕ) (product_id : String) (decode : β → Option α) : Option α :=
  if !c.read_enabled then none
  else read_cached fs now (c.dir ++ "/product_" ++ product_id ++ ".json") PRODUCT_TTL decode

/-- `Cache::set_product`. -/
def Cache.set_product {β : Type} (c : Cache) (fs : String → Option (FsEntry β))
    (now : ℕ) (product_id : String) (content : β) : String → Option (FsEntry β) :=
  write_cached fs now (c.dir ++ "/product_" ++ product_id ++ ".json") content

/-- `Cache::get_search`. -/
def Cache.get_search {α β : Type} (c : Cache) (fs : String → Option (FsEntry β))
    (now : ℕ) (query : String) (sort : SortOrder) (category : Option String)
    (decode : β → Option α) : Option α :=
  if !c.read_enabled then none
  else
    read_cached fs now
      (c.dir ++ "/search_" ++ search_key query sort category ++ ".json") SEARCH_TTL decode

/-- `Cache::set_search`. -/
def Cache.set_search {β : Type} (c : Cache) (fs : String → Option (FsEntry β))
    (now : ℕ) (query : String) (sort : SortOrder) (category : Option String)
    (content : β) : String → Option (FsEntry β) :=
  write_cached fs now
    (c.dir ++ "/search_" ++ search_key query sort category ++ ".json") content

/-! ## `scraper/navigation.rs`

The live page is modelled by the stream of titles the successive
`document.title` evaluations observe: the k-th challenge check reads
`titles k`. The best-effort Turnstile click and the sleeps are side effects
with no bearing on the observed titles' bookkeeping. -/

/-- `MAX_CLOUDFLARE_RETRIES`. -/
def MAX_CLOUDFLARE_RETRIES : ℕ := 3

/-- `CLOUDFLARE_WAIT_SECS` (one 1-second poll per waited second). -/
def CLOUDFLARE_WAIT_SECS : ℕ := 12

/-- Embedding of `Navigator::is_cloudflare_challenge` applied to a title. -/
def is_cloudflare_challenge (title : String) : Bool :=
  containsSubstr title ("Just a moment") || containsSubstr title ("Attention Required")

/-- The inner challenge-wait poll loop
(`for _ in 0..total_checks { sleep; if !challenge { break } }`): starting
at check index `i` with `fuel` polls left, returns the next unused check
index (the loop breaks at the first cleared check). -/
def pollChallenge (titles : ℕ → String) : ℕ → ℕ → ℕ
  | i, 0 => i
  | i, fuel + 1 =>
    if is_cloudflare_challenge (titles i) then pollChallenge titles (i + 1) fuel
    else i + 1

/-- The outer challenge loop (`for attempt in 1..=MAX_CLOUDFLARE_RETRIES`),
with `remaining` iterations of the range left: returns the next unused
check index on success, or `CloudflareBlocked` when the cap is hit. -/
def challengeLoop (titles : ℕ → String) : ℕ → ℕ → ℕ → Except IherbError ℕ
  | _, i, 0 => .ok i
  | attempt, i, remaining + 1 =>
    if !is_cloudflare_challenge (titles i) then .ok (i + 1)
    else if attempt == MAX_CLOUDFLARE_RETRIES then
      .error (.CloudflareBlocked MAX_CLOUDFLARE_RETRIES)
    else
      challengeLoop titles (attempt + 1)
        (pollChallenge titles (i + 1) CLOUDFLARE_WAIT_SECS) remaining

/-- Embedding of `Navigator::navigate` from the challenge-check onwards
(page load and readiness polling are I/O with no further observable
effect): runs the challenge loop and returns the rendered HTML. -/
def navigate (titles : ℕ → String) (html : String) : Except IherbError String :=
  (challengeLoop titles 1 0 MAX_CLOUDFLARE_RETRIES).map (fun _ => html)

/-- Embedding of the loop body of `Navigator::navigate_with_retry`.
`results n` is the outcome of the n-th `navigate` call (1-indexed). Returns
the final outcome, the number of attempts performed, and the list of
backoff waits (in seconds) slept between attempts. The
`Option.getD` models `last_err.unwrap()`, unreachable because the loop
body runs at least once. -/
def retryAux (results : ℕ → Except IherbError String) (max_retries : ℕ) :
    ℕ → ℕ → List ℕ → Option IherbError → Except IherbError String × ℕ × List ℕ
  | 0, attempt, waits, last_err =>
    (.error (last_err.getD (.Navigation "")), attempt - 1, waits)
  | fuel + 1, attempt, waits, _last_err =>
    match results attempt with
    | .ok html => (.ok html, attempt, waits)
    | .error e =>
      if attempt ≤ max_retries then
        retryAux results max_retries fuel (attempt + 1) (waits ++ [2 ^ (attempt - 1)]) (some e)
      else retryAux results max_retries fuel (attempt + 1) waits (some e)

/-- Embedding of `Navigator::navigate_with_retry`
(`for attempt in 1..=max_retries + 1`). -/
def navigate_with_retry (results : ℕ → Except IherbError String) (max_retries : ℕ) :
    Except IherbError String × ℕ × List ℕ :=
  retryAux results max_retries (max_retries + 1) 1 [] none

/-! ## `scraper/search.rs` pagination and the `cmd_search` flow -/

/-- `RESULTS_PER_PAGE`. -/
def RESULTS_PER_PAGE : ℕ := 48

/-- Embedding of `search::pages_needed`. -/
def pages_needed (limit : ℕ) : ℕ :=
  (limit + RESULTS_PER_PAGE - 1) / RESULTS_PER_PAGE

/-- Embedding of the page loop of `main::cmd_search`
(`for page_num in 1..=total_pages`). `pages n` is the extraction result of
the n-th search page. State: remaining loop iterations, next page number,
accumulated products, site-reported total, pages fetched so far. -/
def searchLoopAux (pages : ℕ → SearchResult) (limit : ℕ) :
    ℕ → ℕ → List ProductSummary → Option ℕ → ℕ →
    List ProductSummary × Option ℕ × ℕ
  | 0, _, acc, total, fetched => (acc, total, fetched)
  | fuel + 1, page_num, acc, total, fetched =>
    if limit ≤ acc.length then (acc, total, fetched)
    else
      let page_result := pages page_num
      if page_result.products.isEmpty then (acc, total, fetched + 1)
      else
        searchLoopAux pages limit fuel (page_num + 1) (acc ++ page_result.products)
          (if total.isNone then page_result.total_results else total) (fetched + 1)

/-- Embedding of `main::cmd_search`: cache probe, paginated fetch loop,
truncation to the requested limit, cache write. Returns the command
outcome, the number of pages fetched, and the resulting cache filesystem. -/
def cmd_search (fs : String → Option (FsEntry SearchResult)) (now : ℕ)
    (cache_dir : String) (no_cache : Bool) (pages : ℕ → SearchResult)
    (query : String) (sort : SortOrder) (category : Option String) (limit : ℕ) :
    Except String (List ProductSummary) × ℕ × (String → Option (FsEntry SearchResult)) :=
  let cache := Cache.new cache_dir no_cache
  match cache.get_search fs now query sort category some with
  | some cached => (.ok (cached.products.take limit), 0, fs)
  | none =>
    let r := searchLoopAux pages limit (pages_needed limit) 1 [] none 0
    let all_products := r.1
    if all_products.isEmpty then (.error ("No search results found"), r.2.2, fs)
    else
      let result : SearchResult :=
        { query := query, total_results := r.2.1, products := all_products.take limit }
      (.ok result.products, r.2.2, cache.set_search fs now query sort category result)

/-! ## Concrete test fixtures -/

/-- A page with no recognizable markup at all. -/
def emptyDom : Dom := {
  html := ""
  h1NameText := none
  brandText := none
  shareEmail := none
  listPriceText := none
  starsTitle := none
  ratingCountText := none
  stockStatusText := none
  specProductCode := none
  specUpc := none
  specShippingWeight := none
  metaPriceCurrency := none
  priceBdiText := none
  ingredientsText := none
  overviewSections := []
  supplementFacts := none
  reviewDistribution := none }

/-! ## Supporting lemmas -/

theorem filter_keepPriceChar_idem (l : List Char) :
    (l.filter keepPriceChar).filter keepPriceChar = l.filter keepPriceChar := by
  rw [List.filter_filter]
  simp [Bool.and_self]

theorem contains_ne_nil {l : List Char} {c : Char} (h : l.contains c = true) :
    l.isEmpty = false := by
  cases l with
  | nil => simp [List.contains] at h
  | cons a l => rfl

theorem allDigits_afterLast_comma {l : List Char}
    (hall : ∀ c ∈ l, keepPriceChar c = true) (hnd : l.contains '.' = false) :
    allDigits (afterLast ',' l) = true := by
  unfold allDigits afterLast
  rw [List.all_eq_true]
  intro c hc
  rw [List.mem_reverse] at hc
  have hne : c ≠ ',' := by
    have := List.mem_takeWhile_imp hc
    simpa using this
  have hmem : c ∈ l :=
    List.mem_reverse.mp
      ((List.takeWhile_sublist (l := l.reverse) (fun d => decide (d ≠ ','))).subset hc)
  have hk := hall c hmem
  have hnotdot : c ≠ '.' := by
    intro hcd
    subst hcd
    rw [List.contains_eq_any_beq] at hnd
    simp [List.any_eq_true] at hnd
    exact absurd rfl (hnd '.' hmem)
  unfold keepPriceChar at hk
  rcases Bool.or_eq_true_iff.mp hk with hk | hk
  · rcases Bool.or_eq_true_iff.mp hk with hk | hk
    · exact hk
    · exact absurd (by simpa using hk) hnotdot
  · exact absurd (by simpa using hk) hne

/-!
## C4: the shared price normalizer
-/

/-- C4. The price normalizer `parse_price_str` meets its specification: the
five concrete test values, invariance under stripping every character other
than digits, `.` and `,`, the later of the two separators acting as the
decimal separator when both appear, and — when only commas appear — the
comma acting as a thousands separator exactly when three digits follow the
last comma and as a decimal separator otherwise. -/
theorem C4_price_normalizer :
    parse_price_str ("1,234.56") = some (mkRat 123456 100) ∧
    parse_price_str ("1.234,56") = some (mkRat 123456 100) ∧
    parse_price_str ("23,99") = some (mkRat 2399 100) ∧
    parse_price_str ("1,000") = some (mkRat 1000 1) ∧
    parse_price_str ("") = none ∧
    (∀ s : String,
      parse_price_str s = parse_price_str (String.mk (s.data.filter keepPriceChar))) ∧
    (∀ s : String,
      (s.data.filter keepPriceChar).contains '.' = true →
      (s.data.filter keepPriceChar).contains ',' = true →
      (lastIdxOf ',' (s.data.filter keepPriceChar) <
          lastIdxOf '.' (s.data.filter keepPriceChar) →
        parse_price_str s =
          parseF64Chars ((s.data.filter keepPriceChar).filter (fun c => c ≠ ','))) ∧
      (lastIdxOf '.' (s.data.filter keepPriceChar) <
          lastIdxOf ',' (s.data.filter keepPriceChar) →
        parse_price_str s =
          parseF64Chars (replaceFirstChar ',' '.'
            ((s.data.filter keepPriceChar).filter (fun c => c ≠ '.'))))) ∧
    (∀ s : String,
      (s.data.filter keepPriceChar).contains '.' = false →
      (s.data.filter keepPriceChar).contains ',' = true →
      ((afterLast ',' (s.data.filter keepPriceChar)).length = 3 →
        parse_price_str s =
          parseF64Chars ((s.data.filter keepPriceChar).filter (fun c => c ≠ ','))) ∧
      ((afterLast ',' (s.data.filter keepPriceChar)).length ≠ 3 →
        parse_price_str s =
          parseF64Chars (replaceFirstChar ',' '.' (s.data.filter keepPriceChar)))) := by
  refine ⟨by decide, by decide, by decide, by decide, by decide, ?_, ?_, ?_⟩
  · intro s
    unfold parse_price_str
    rw [show (String.mk (s.data.filter keepPriceChar)).data = s.data.filter keepPriceChar
      from rfl]
    rw [filter_keepPriceChar_idem]
  · intro s hdot hcomma
    have hne : (s.data.filter keepPriceChar).isEmpty = false := contains_ne_nil hdot
    constructor
    · intro hlt
      unfold parse_price_str
      simp only [hne, Bool.false_eq_true, if_false, hdot, hcomma, Bool.and_self, if_true]
      rw [if_neg (by omega)]
    · intro hlt
      unfold parse_price_str
      simp only [hne, Bool.false_eq_true, if_false, hdot, hcomma, Bool.and_self, if_true]
      rw [if_pos hlt]
  · intro s hdot hcomma
    have hne : (s.data.filter keepPriceChar).isEmpty = false := contains_ne_nil hcomma
    have hall : ∀ c ∈ s.data.filter keepPriceChar, keepPriceChar c = true := fun c hc =>
      List.of_mem_filter (p := keepPriceChar) hc
    have hdig : allDigits (afterLast ',' (s.data.filter keepPriceChar)) = true :=
      allDigits_afterLast_comma hall hdot
    constructor
    · intro hlen
      unfold parse_price_str
      simp only [hne, Bool.false_eq_true, if_false, hdot, hcomma, Bool.false_and,
        Bool.true_and, Bool.and_true, if_true]
      rw [if_pos (by simp [hlen, hdig])]
    · intro hlen
      unfold parse_price_str
      simp only [hne, Bool.false_eq_true, if_false, hdot, hcomma, Bool.false_and,
        Bool.true_and, Bool.and_true, if_true]
      rw [if_neg (by simp [hlen])]

/-- Witness for C4: the general clauses applied at concrete inputs. -/
theorem C4_price_normalizer_witness :
    parse_price_str ("1,234.56") =
      parseF64Chars
        ((("1,234.56" : String).data.filter keepPriceChar).filter (fun c => c ≠ ',')) ∧
    parse_price_str ("23,99") =
      parseF64Chars (replaceFirstChar ',' '.'
        (("23,99" : String).data.filter keepPriceChar)) := by
  constructor
  · exact ((C4_price_normalizer.2.2.2.2.2.2.1 ("1,234.56")) (by decide) (by decide)).1
      (by decide)
  · exact ((C4_price_normalizer.2.2.2.2.2.2.2 ("23,99")) (by decide) (by decide)).2
      (by decide)

/-! ## Field-preservation lemmas for the enrichment pass -/

/-- The fields the original-price invariant and the cascade claims are
about: name, price, original price. -/
def coreFields (p : ProductDetail) : String × ℚ × Option ℚ :=
  (p.name, p.price, p.original_price)

theorem coreFields_assign_section (h c : String) (p : ProductDetail) :
    coreFields (assign_section_by_heading h c p) = coreFields p := by
  unfold assign_section_by_heading
  repeat' split
  all_goals rfl

theorem coreFields_overviewStep (p : ProductDetail) (hc : String × Option String) :
    coreFields (overviewStep p hc) = coreFields p := by
  unfold overviewStep
  rcases hc with ⟨h, c⟩
  cases c with
  | none => rfl
  | some content =>
    simp only []
    split
    · exact coreFields_assign_section _ _ _
    · rfl

theorem coreFields_foldl_overview (l : List (String × Option String)) :
    ∀ p : ProductDetail, coreFields (l.foldl overviewStep p) = coreFields p := by
  induction l with
  | nil => intro p; rfl
  | cons hd tl ih =>
    intro p
    rw [List.foldl_cons, ih (overviewStep p hd), coreFields_overviewStep]

theorem coreFields_parse_overview (dom : Dom) (p : ProductDetail) :
    coreFields (parse_overview_sections dom p) = coreFields p := by
  unfold parse_overview_sections
  rw [coreFields_foldl_overview]
  split
  · split
    · rfl
    · rfl
  · rfl

theorem coreFields_enrich_rating (dom : Dom) (p : ProductDetail) :
    coreFields (enrich_rating_and_reviews dom p) = coreFields p := by
  unfold enrich_rating_and_reviews
  simp only []
  repeat' split
  all_goals rfl

theorem coreFields_enrich_specs (dom : Dom) (p : ProductDetail) :
    coreFields (enrich_product_specs dom p) = coreFields p := by
  unfold enrich_product_specs
  simp only []
  repeat' split
  all_goals rfl

theorem coreFields_enrich_brand (dom : Dom) (p : ProductDetail) :
    coreFields (enrich_brand dom p) = coreFields p := by
  unfold enrich_brand
  repeat' split
  all_goals rfl

theorem name_enrich_pricing (dom : Dom) (p : ProductDetail) :
    (enrich_pricing dom p).name = p.name := by
  unfold enrich_pricing
  simp only []
  repeat' (first | split | simp only [])

/-- The enrichment pass leaves the name untouched, and its price and
original price are exactly those produced by the pricing-reconciliation
step applied after the brand fill. -/
theorem enrich_from_html_core (dom : Dom) (p : ProductDetail) :
    (enrich_from_html dom p).name = p.name ∧
    (enrich_from_html dom p).price = (enrich_pricing dom (enrich_brand dom p)).price ∧
    (enrich_from_html dom p).original_price =
      (enrich_pricing dom (enrich_brand dom p)).original_price := by
  have hmid : ∀ q : ProductDetail,
      coreFields
        (parse_overview_sections dom (enrich_product_specs dom
          (match dom.stockStatusText with
           | some stock_text =>
             { q with in_stock := containsSubstr stock_text.toLower ("in stock") }
           | none => q))) = coreFields q := by
    intro q
    rw [coreFields_parse_overview, coreFields_enrich_specs]
    cases dom.stockStatusText with
    | none => rfl
    | some t => rfl
  have hrat : ∀ q : ProductDetail,
      coreFields (enrich_rating_and_reviews dom q) = coreFields q :=
    coreFields_enrich_rating dom
  have hfinal : ∀ q : ProductDetail,
      coreFields
        (if (if q.supplement_facts.isNone then
              { q with supplement_facts := dom.supplementFacts }
            else q).review_distribution.isNone then
          { (if q.supplement_facts.isNone then
              { q with supplement_facts := dom.supplementFacts }
            else q) with review_distribution := dom.reviewDistribution }
        else
          (if q.supplement_facts.isNone then
            { q with supplement_facts := dom.supplementFacts }
          else q)) = coreFields q := by
    intro q
    repeat' split
    all_goals rfl
  have key : coreFields (enrich_from_html dom p) =
      coreFields (enrich_pricing dom (enrich_brand dom p)) := by
    unfold enrich_from_html
    simp only []
    rw [hfinal, hmid, hrat]
  have hname := congrArg (fun t => t.1) key
  have hprice := congrArg (fun t => t.2.1) key
  have horig := congrArg (fun t => t.2.2) key
  simp only [coreFields] at hname hprice horig
  refine ⟨?_, hprice, horig⟩
  rw [hname, name_enrich_pricing]
  exact congrArg (fun t => t.1) (coreFields_enrich_brand dom p)

/-!
## C5: cache get contract
-/

/-- C5 (amended). Cache get contract: a stored search artifact is a hit
while at most 1 hour has elapsed since its last-modified time — including
at exactly 1 hour, since expiry requires `age > ttl` — and a miss strictly
after 1 hour; a product artifact follows the same rule at 24 hours; an
artifact whose content fails to parse is a miss, not an error; and in
bypass-read mode every get misses while a subsequent set still writes the
artifact. -/
theorem C5_cache_freshness :
    (∀ (α β : Type) (fs : String → Option (FsEntry β)) (now : ℕ) (dir query : String)
      (sort : SortOrder) (category : Option String) (decode : β → Option α)
      (e : FsEntry β) (v : α),
      fs (dir ++ "/search_" ++ search_key query sort category ++ ".json") = some e →
      e.modified ≤ now → now - e.modified ≤ SEARCH_TTL → decode e.content = some v →
      Cache.get_search (Cache.new dir false) fs now query sort category decode = some v) ∧
    (∀ (α β : Type) (fs : String → Option (FsEntry β)) (now : ℕ) (dir query : String)
      (sort : SortOrder) (category : Option String) (decode : β → Option α)
      (e : FsEntry β),
      fs (dir ++ "/search_" ++ search_key query sort category ++ ".json") = some e →
      SEARCH_TTL < now - e.modified →
      Cache.get_search (Cache.new dir false) fs now query sort category decode = none) ∧
    (∀ (α β : Type) (fs : String → Option (FsEntry β)) (now : ℕ) (dir pid : String)
      (decode : β → Option α) (e : FsEntry β) (v : α),
      fs (dir ++ "/product_" ++ pid ++ ".json") = some e →
      e.modified ≤ now → now - e.modified ≤ PRODUCT_TTL → decode e.content = some v →
      Cache.get_product (Cache.new dir false) fs now pid decode = some v) ∧
    (∀ (α β : Type) (fs : String → Option (FsEntry β)) (now : ℕ) (dir pid : String)
      (decode : β → Option α) (e : FsEntry β),
      fs (dir ++ "/product_" ++ pid ++ ".json") = some e →
      PRODUCT_TTL < now - e.modified →
      Cache.get_product (Cache.new dir false) fs now pid decode = none) ∧
    (∀ (α β : Type) (fs : String → Option (FsEntry β)) (now : ℕ) (dir query : String)
      (sort : SortOrder) (category : Option String) (decode : β → Option α)
      (e : FsEntry β),
      fs (dir ++ "/search_" ++ search_key query sort category ++ ".json") = some e →
      decode e.content = none →
      Cache.get_search (Cache.new dir false) fs now query sort category decode = none) ∧
    (∀ (α β : Type) (fs : String → Option (FsEntry β)) (now : ℕ) (dir query pid : String)
      (sort : SortOrder) (category : Option String) (decode : β → Option α),
      Cache.get_search (Cache.new dir true) fs now query sort category decode = none ∧
      Cache.get_product (Cache.new dir true) fs now pid decode = none) ∧
    (∀ (β : Type) (fs : String → Option (FsEntry β)) (now : ℕ) (dir query : String)
      (sort : SortOrder) (category : Option String) (content : β),
      Cache.set_search (Cache.new dir true) fs now query sort category content
          (dir ++ "/search_" ++ search_key query sort category ++ ".json") =
        some { modified := now, content := content }) := by
  refine ⟨?_, ?_, ?_, ?_, ?_, ?_, ?_⟩
  · intro α β fs now dir query sort category decode e v hfs hmod hage hdec
    simp only [Cache.get_search, Cache.new, Bool.not_false, Bool.not_true,
      Bool.false_eq_true, if_false, read_cached, hfs, Option.bind_eq_bind,
      Option.some_bind]
    rw [if_neg (by omega), if_neg (by omega)]
    exact hdec
  · intro α β fs now dir query sort category decode e hfs hage
    simp only [Cache.get_search, Cache.new, Bool.not_false, Bool.not_true,
      Bool.false_eq_true, if_false, read_cached, hfs, Option.bind_eq_bind,
      Option.some_bind]
    rw [if_neg (by omega), if_pos (by omega)]
  · intro α β fs now dir pid decode e v hfs hmod hage hdec
    simp only [Cache.get_product, Cache.new, Bool.not_false, Bool.not_true,
      Bool.false_eq_true, if_false, read_cached, hfs, Option.bind_eq_bind,
      Option.some_bind]
    rw [if_neg (by omega), if_neg (by omega)]
    exact hdec
  · intro α β fs now dir pid decode e hfs hage
    simp only [Cache.get_product, Cache.new, Bool.not_false, Bool.not_true,
      Bool.false_eq_true, if_false, read_cached, hfs, Option.bind_eq_bind,
      Option.some_bind]
    rw [if_neg (by omega), if_pos (by omega)]
  · intro α β fs now dir query sort category decode e hfs hdec
    simp only [Cache.get_search, Cache.new, Bool.not_false, Bool.not_true,
      Bool.false_eq_true, if_false, read_cached, hfs, Option.bind_eq_bind,
      Option.some_bind]
    by_cases h1 : now < e.modified
    · rw [if_pos h1]
    · rw [if_neg h1]
      by_cases h2 : now - e.modified > SEARCH_TTL
      · rw [if_pos h2]
      · rw [if_neg h2]
        exact hdec
  · intro α β fs now dir query pid sort category decode
    constructor
    · simp [Cache.get_search, Cache.new]
    · simp [Cache.get_product, Cache.new]
  · intro β fs now dir query sort category content
    simp [Cache.set_search, write_cached, Cache.new]

/-- The search artifact used to exercise the freshness boundary. -/
def c5SearchFs : String → Option (FsEntry String) := fun p =>
  if p = "d/search_qrelevance.json" then some { modified := 0, content := "r" } else none

/-- The product artifact used to exercise the freshness boundary. -/
def c5ProductFs : String → Option (FsEntry String) := fun p =>
  if p = "d/product_7.json" then some { modified := 0, content := "r" } else none

/-- Counterexample for C5 as stated: at exactly 1 hour (resp. 24 hours)
since the artifact's last-modified time, a get is still a hit — the claim's
"miss at/after" is wrong at the boundary, since the code expires only when
`age > ttl`. -/
theorem C5_counterexample :
    Cache.get_search (Cache.new ("d") false) c5SearchFs SEARCH_TTL ("q")
      SortOrder.Relevance none (fun s => some s) = some ("r") ∧
    Cache.get_product (Cache.new ("d") false) c5ProductFs PRODUCT_TTL ("7")
      (fun s => some s) = some ("r") := by
  constructor
  · decide
  · decide

/-- Witness for C5: the amended contract applied at concrete artifacts. -/
theorem C5_cache_freshness_witness :
    Cache.get_search (Cache.new ("d") false) c5SearchFs 100 ("q")
      SortOrder.Relevance none (fun s => some s) = some ("r") ∧
    Cache.get_search (Cache.new ("d") false) c5SearchFs 3601 ("q")
      SortOrder.Relevance none (fun s => some s) = none ∧
    Cache.get_search (Cache.new ("d") false) c5SearchFs 100 ("q")
      SortOrder.Relevance none (fun _ => (none : Option ℕ)) = none ∧
    Cache.get_search (Cache.new ("d") true) c5SearchFs 100 ("q")
      SortOrder.Relevance none (fun s => some s) = none ∧
    Cache.set_search (Cache.new ("d") true) c5SearchFs 100 ("q")
      SortOrder.Relevance none ("w") ("d/search_qrelevance.json") =
      some { modified := 100, content := "w" } := by
  refine ⟨?_, ?_, ?_, ?_, ?_⟩
  · exact C5_cache_freshness.1 String String c5SearchFs 100 ("d") ("q")
      SortOrder.Relevance none (fun s => some s) { modified := 0, content := "r" } ("r")
      (by decide) (by decide) (by decide) (by decide)
  · exact C5_cache_freshness.2.1 String String c5SearchFs 3601 ("d") ("q")
      SortOrder.Relevance none (fun s => some s) { modified := 0, content := "r" }
      (by decide) (by decide)
  · exact C5_cache_freshness.2.2.2.2.1 ℕ String c5SearchFs 100 ("d") ("q")
      SortOrder.Relevance none (fun _ => none) { modified := 0, content := "r" }
      (by decide) (by decide)
  · exact (C5_cache_freshness.2.2.2.2.2.1 String String c5SearchFs 100 ("d") ("q") ("7")
      SortOrder.Relevance none (fun s => some s)).1
  · exact C5_cache_freshness.2.2.2.2.2.2 String c5SearchFs 100 ("d") ("q")
      SortOrder.Relevance none ("w")

/-!
## C7: challenge rounds and early exit
-/

theorem pollChallenge_all_blocked (titles : ℕ → String)
    (h : ∀ k, is_cloudflare_challenge (titles k) = true) :
    ∀ n i, pollChallenge titles i n = i + n := by
  intro n
  induction n with
  | zero => intro i; rfl
  | succ n ih =>
    intro i
    unfold pollChallenge
    rw [h i, if_pos rfl, ih (i + 1)]
    omega

theorem pollChallenge_clears (titles : ℕ → String) :
    ∀ (n i j : ℕ), i ≤ j → j < i + n →
    (∀ m, i ≤ m → m < j → is_cloudflare_challenge (titles m) = true) →
    is_cloudflare_challenge (titles j) = false →
    pollChallenge titles i n = j + 1 := by
  intro n
  induction n with
  | zero => intro i j hij hlt _ _; omega
  | succ n ih =>
    intro i j hij hlt hall hj
    unfold pollChallenge
    by_cases hcase : i = j
    · subst hcase
      rw [hj]
      simp
    · have hi : is_cloudflare_challenge (titles i) = true := hall i le_rfl (by omega)
      rw [hi, if_pos rfl]
      exact ih (i + 1) j (by omega) (by omega) (fun m hm hmj => hall m (by omega) hmj) hj

/-- C7. If the page title keeps containing a challenge marker, the
Navigator runs its challenge rounds up to the fixed maximum of 3 and then
fails the attempt with `CloudflareBlocked 3`; if the marker clears during
the first round's 1-second polling (up to 12 polls) and stays cleared, the
wait exits early — the loop stops after check `j + 2` instead of running
all polls — and navigation returns the page HTML. -/
theorem C7_challenge_rounds :
    (∀ (titles : ℕ → String) (html : String),
      (∀ k, is_cloudflare_challenge (titles k) = true) →
      navigate titles html = .error (.CloudflareBlocked 3)) ∧
    (∀ (titles : ℕ → String) (html : String) (j : ℕ),
      is_cloudflare_challenge (titles 0) = true → 1 ≤ j → j ≤ 12 →
      (∀ m, 1 ≤ m → m < j → is_cloudflare_challenge (titles m) = true) →
      (∀ m, j ≤ m → is_cloudflare_challenge (titles m) = false) →
      navigate titles html = .ok html ∧
      challengeLoop titles 1 0 MAX_CLOUDFLARE_RETRIES = .ok (j + 2)) := by
  constructor
  · intro titles html h
    have hp := pollChallenge_all_blocked titles h
    simp [navigate, challengeLoop, h, hp, MAX_CLOUDFLARE_RETRIES, Except.map]
  · intro titles html j h0 hj1 hj12 hmid hclear
    have hpoll : pollChallenge titles 1 CLOUDFLARE_WAIT_SECS = j + 1 :=
      pollChallenge_clears titles CLOUDFLARE_WAIT_SECS 1 j hj1
        (by unfold CLOUDFLARE_WAIT_SECS; omega) (fun m hm hmj => hmid m hm hmj)
        (hclear j le_rfl)
    have hloop : challengeLoop titles 1 0 MAX_CLOUDFLARE_RETRIES = .ok (j + 2) := by
      unfold MAX_CLOUDFLARE_RETRIES
      unfold challengeLoop
      rw [h0]
      simp only [Bool.not_true, Bool.false_eq_true, if_false]
      rw [if_neg (by decide)]
      rw [show (0 : ℕ) + 1 = 1 from rfl, hpoll]
      unfold challengeLoop
      rw [hclear (j + 1) (by omega)]
      simp only [Bool.not_false, if_true]
    refine ⟨?_, hloop⟩
    unfold navigate
    rw [hloop]
    rfl

/-- A title stream that stays on the challenge page forever. -/
def blockedTitles : ℕ → String := fun _ => "Just a moment..."

/-- A title stream whose challenge clears at the third poll. -/
def clearingTitles : ℕ → String := fun k => if k < 3 then "Just a moment..." else "iHerb"

/-- Witness for C7: a permanently blocked page yields `CloudflareBlocked 3`;
a page whose marker clears at poll 3 yields the HTML with the loop stopping
at check 5. -/
theorem C7_challenge_rounds_witness :
    navigate blockedTitles ("<html></html>") = .error (.CloudflareBlocked 3) ∧
    (navigate clearingTitles ("<html></html>") = .ok ("<html></html>") ∧
      challengeLoop clearingTitles 1 0 MAX_CLOUDFLARE_RETRIES = .ok 5) := by
  constructor
  · exact C7_challenge_rounds.1 blockedTitles ("<html></html>")
      (fun k => by
        show is_cloudflare_challenge ("Just a moment...") = true
        decide)
  · exact C7_challenge_rounds.2 clearingTitles ("<html></html>") 3 (by decide) (by decide)
      (by decide)
      (fun m h1 h3 => by
        have hm : m < 3 := h3
        unfold clearingTitles
        rw [if_pos hm]
        decide)
      (fun m h3 => by
        have hm : ¬m < 3 := by omega
        unfold clearingTitles
        rw [if_neg hm]
        decide)

/-!
## C8: the retry wrapper
-/

theorem retryAux_count_le (results : ℕ → Except IherbError String) (r : ℕ) :
    ∀ fuel attempt waits last_err,
      (retryAux results r fuel attempt waits last_err).2.1 ≤ attempt + fuel - 1 := by
  intro fuel
  induction fuel with
  | zero => intro attempt waits last_err; simp [retryAux]
  | succ fuel ih =>
    intro attempt waits last_err
    unfold retryAux
    cases hres : results attempt with
    | ok html => exact (by omega : attempt ≤ attempt + (fuel + 1) - 1)
    | error e =>
      simp only []
      by_cases hle : attempt ≤ r
      · rw [if_pos hle]
        have := ih (attempt + 1) (waits ++ [2 ^ (attempt - 1)]) (some e)
        omega
      · rw [if_neg hle]
        have := ih (attempt + 1) waits (some e)
        omega

theorem retryAux_all_fail (results : ℕ → Except IherbError String) (r : ℕ)
    (e : ℕ → IherbError) :
    ∀ fuel attempt waits last_err, 1 ≤ fuel → fuel + attempt = r + 2 →
      (∀ n, attempt ≤ n → n ≤ r + 1 → results n = .error (e n)) →
      retryAux results r fuel attempt waits last_err =
        (.error (e (r + 1)), r + 1,
          waits ++ (List.range' attempt (fuel - 1)).map (fun n => 2 ^ (n - 1))) := by
  intro fuel
  induction fuel with
  | zero => intro attempt waits last_err h1; omega
  | succ fuel ih =>
    intro attempt waits last_err _ hsum hall
    unfold retryAux
    rw [hall attempt le_rfl (by omega)]
    simp only []
    cases fuel with
    | zero =>
      have hatt : attempt = r + 1 := by omega
      rw [if_neg (by omega)]
      unfold retryAux
      subst hatt
      simp
    | succ fuel =>
      rw [if_pos (by omega)]
      rw [ih (attempt + 1) (waits ++ [2 ^ (attempt - 1)]) (some (e attempt)) (by omega)
        (by omega) (fun n hn hn2 => hall n (by omega) hn2)]
      simp only [List.append_assoc, List.singleton_append]
      rw [show fuel + 1 + 1 - 1 = fuel + 1 from rfl,
        show fuel + 1 - 1 = fuel from rfl, List.range']
      rfl

theorem retryAux_success (results : ℕ → Except IherbError String) (r : ℕ)
    (e : ℕ → IherbError) (k : ℕ) (h : String) :
    ∀ fuel attempt waits last_err, fuel + attempt = r + 2 →
      attempt ≤ k → k < attempt + fuel →
      (∀ n, attempt ≤ n → n < k → results n = .error (e n)) →
      results k = .ok h →
      retryAux results r fuel attempt waits last_err =
        (.ok h, k, waits ++ (List.range' attempt (k - attempt)).map (fun n => 2 ^ (n - 1))) := by
  intro fuel
  induction fuel with
  | zero => intro attempt waits last_err hsum hak hka; omega
  | succ fuel ih =>
    intro attempt waits last_err hsum hak hka hfail hok
    unfold retryAux
    by_cases hcase : attempt = k
    · subst hcase
      rw [hok]
      simp
    · rw [hfail attempt le_rfl (by omega)]
      simp only []
      rw [if_pos (by omega)]
      rw [ih (attempt + 1) (waits ++ [2 ^ (attempt - 1)]) (some (e attempt)) (by omega)
        (by omega) (by omega) (fun n hn hnk => hfail n (by omega) hnk) hok]
      simp only [List.append_assoc, List.singleton_append]
      rw [show k - attempt = (k - (attempt + 1)) + 1 from by omega, List.range']
      rfl

/-- C8. The retry wrapper with retry count `r` makes at most `r + 1`
attempts; when every attempt fails it performs exactly `r + 1` attempts,
sleeps `2^(n-1)` seconds after each failed attempt `n ≤ r`, and surfaces
the last observed error — whatever error each attempt produced; when
attempt `k` is the first to succeed it stops there with the page HTML. -/
theorem C8_retry_wrapper :
    (∀ (results : ℕ → Except IherbError String) (r : ℕ),
      (navigate_with_retry results r).2.1 ≤ r + 1) ∧
    (∀ (results : ℕ → Except IherbError String) (r : ℕ) (e : ℕ → IherbError),
      (∀ n, 1 ≤ n → n ≤ r + 1 → results n = .error (e n)) →
      navigate_with_retry results r =
        (.error (e (r + 1)), r + 1, (List.range' 1 r).map (fun n => 2 ^ (n - 1)))) ∧
    (∀ (results : ℕ → Except IherbError String) (r : ℕ) (e : ℕ → IherbError)
      (k : ℕ) (h : String),
      1 ≤ k → k ≤ r + 1 →
      (∀ n, 1 ≤ n → n < k → results n = .error (e n)) →
      results k = .ok h →
      navigate_with_retry results r =
        (.ok h, k, (List.range' 1 (k - 1)).map (fun n => 2 ^ (n - 1)))) := by
  refine ⟨?_, ?_, ?_⟩
  · intro results r
    have := retryAux_count_le results r (r + 1) 1 [] none
    unfold navigate_with_retry
    omega
  · intro results r e hall
    unfold navigate_with_retry
    rw [retryAux_all_fail results r e (r + 1) 1 [] none (by omega) (by omega) hall]
    simp
  · intro results r e k h hk1 hkr hfail hok
    unfold navigate_with_retry
    rw [retryAux_success results r e k h (r + 1) 1 [] none (by omega) hk1 (by omega)
      hfail hok]
    simp

/-- Witness for C8: with the default 2 retries and every attempt failing on
an exhausted challenge, 3 attempts are made, backoffs are 1 s then 2 s, and
the last error is surfaced; with attempt 2 the first success, 2 attempts
are made. -/
theorem C8_retry_wrapper_witness :
    navigate_with_retry (fun _ => .error (.CloudflareBlocked 3)) 2 =
      (.error (.CloudflareBlocked 3), 3, [1, 2]) ∧
    navigate_with_retry
      (fun n => if n = 1 then .error (.Navigation ("timeout")) else .ok ("<html></html>")) 2 =
      (.ok ("<html></html>"), 2, [1]) := by
  constructor
  · have := C8_retry_wrapper.2.1 (fun _ => .error (.CloudflareBlocked 3)) 2
      (fun _ => .CloudflareBlocked 3) (fun n _ _ => rfl)
    simpa using this
  · have := C8_retry_wrapper.2.2
      (fun n => if n = 1 then .error (.Navigation ("timeout")) else .ok ("<html></html>")) 2
      (fun _ => .Navigation ("timeout")) 2 ("<html></html>") (by omega) (by omega)
      (fun n h1 h2 => by
        have : n = 1 := by omega
        subst this
        rfl)
      (by rfl)
    simpa using this

/-!
## C9: search pagination
-/

theorem ne_nil_isEmpty_false {α : Type} {l : List α} (h : l ≠ []) : l.isEmpty = false := by
  cases l with
  | nil => exact absurd rfl h
  | cons a t => rfl

theorem searchLoopAux_stop (pages : ℕ → SearchResult) (limit : ℕ) :
    ∀ fuel page_num acc total fetched, limit ≤ acc.length →
      searchLoopAux pages limit fuel page_num acc total fetched = (acc, total, fetched) := by
  intro fuel page_num acc total fetched hle
  cases fuel with
  | zero => rfl
  | succ fuel =>
    unfold searchLoopAux
    rw [if_pos hle]

/-- C9. `pages_needed` is ceiling-division of the requested limit by the
fixed page size 48 (the four spec values, and the general bounds
characterizing the ceiling); the page loop stops as soon as the requested
limit is met — only one page is fetched when the first page already covers
the limit — and a page with zero results ends the loop, with the command
still succeeding on whatever was accumulated rather than failing. -/
theorem C9_pagination :
    pages_needed 10 = 1 ∧ pages_needed 48 = 1 ∧ pages_needed 49 = 2 ∧ pages_needed 0 = 0 ∧
    (∀ limit, limit ≤ pages_needed limit * RESULTS_PER_PAGE ∧
      pages_needed limit * RESULTS_PER_PAGE < limit + RESULTS_PER_PAGE) ∧
    (∀ (pages : ℕ → SearchResult) (limit : ℕ),
      1 ≤ limit → limit ≤ (pages 1).products.length →
      searchLoopAux pages limit (pages_needed limit) 1 [] none 0 =
        ((pages 1).products, (pages 1).total_results, 1)) ∧
    (∀ (now : ℕ) (dir : String) (pages : ℕ → SearchResult) (query : String)
      (sort : SortOrder) (category : Option String) (limit : ℕ),
      (pages 1).products ≠ [] → (pages 1).products.length < limit →
      (pages 2).products = [] → 2 ≤ pages_needed limit →
      (cmd_search (fun _ => none) now dir false pages query sort category limit).1 =
        .ok ((pages 1).products) ∧
      (cmd_search (fun _ => none) now dir false pages query sort category limit).2.1 = 2) := by
  refine ⟨by decide, by decide, by decide, by decide, ?_, ?_, ?_⟩
  · intro limit
    unfold pages_needed RESULTS_PER_PAGE
    have hd := Nat.div_add_mod (limit + 48 - 1) 48
    have hm : (limit + 48 - 1) % 48 < 48 := Nat.mod_lt _ (by omega)
    omega
  · intro pages limit h1 hcov
    have hfuel : 1 ≤ pages_needed limit := by
      unfold pages_needed RESULTS_PER_PAGE
      have hd := Nat.div_add_mod (limit + 48 - 1) 48
      have hm : (limit + 48 - 1) % 48 < 48 := Nat.mod_lt _ (by omega)
      omega
    obtain ⟨f, hf⟩ : ∃ f, pages_needed limit = f + 1 := ⟨pages_needed limit - 1, by omega⟩
    rw [hf]
    unfold searchLoopAux
    rw [if_neg (by simp; omega)]
    have hne : (pages 1).products.isEmpty = false := by
      refine ne_nil_isEmpty_false (fun hnil => ?_)
      rw [hnil] at hcov
      simp at hcov
      omega
    simp only [hne, Bool.false_eq_true, if_false, Option.isNone_none, if_true,
      List.nil_append]
    exact searchLoopAux_stop pages limit f 2 (pages 1).products
      (pages 1).total_results 1 hcov
  · intro now dir pages query sort category limit hne hlt hempty hpn
    obtain ⟨f, hf⟩ : ∃ f, pages_needed limit = f + 2 := ⟨pages_needed limit - 2, by omega⟩
    have hloop : searchLoopAux pages limit (pages_needed limit) 1 [] none 0 =
        ((pages 1).products, (pages 1).total_results, 2) := by
      rw [hf]
      unfold searchLoopAux
      rw [if_neg (by simp; omega)]
      have hne1 : (pages 1).products.isEmpty = false := ne_nil_isEmpty_false hne
      simp only [hne1, Bool.false_eq_true, if_false, Option.isNone_none, if_true,
        List.nil_append]
      unfold searchLoopAux
      rw [if_neg (by omega)]
      simp only [show (1 + 1 : ℕ) = 2 from rfl, hempty, List.isEmpty_nil, if_true]
    have hsome : Cache.get_search (Cache.new dir false)
        (fun _ => (none : Option (FsEntry SearchResult))) now query sort category some =
        none := by
      simp [Cache.get_search, Cache.new, read_cached]
    have hne1 : (pages 1).products.isEmpty = false := ne_nil_isEmpty_false hne
    constructor
    · unfold cmd_search
      simp only [hsome, hloop, hne1, Bool.false_eq_true, if_false]
      rw [List.take_of_length_le (by omega)]
    · unfold cmd_search
      simp only [hsome, hloop, hne1, Bool.false_eq_true, if_false]

/-- A sample product summary used as concrete search-page content. -/
def sampleSummary : ProductSummary := {
  name := "Vitamin C 1000 mg"
  brand := "Brand"
  price := mkRat 1999 100
  original_price := some (mkRat 2499 100)
  currency := "USD"
  rating := some (mkRat 48 10)
  review_count := some 42328
  product_url := "https://b/pr/p/1"
  product_id := "1"
  in_stock := true }

/-- Search pages: page 1 has three results, page 2 is empty. -/
def c9Pages : ℕ → SearchResult := fun n =>
  if n = 1 then
    { query := "q", total_results := some 3,
      products := [sampleSummary, sampleSummary, sampleSummary] }
  else { query := "q", total_results := none, products := [] }

/-- Witness for C9: a query yielding 3 cards with a requested limit of 10
returns exactly those 3 summaries, fetching 2 pages (the empty second page
ends the loop without an error). -/
theorem C9_pagination_witness :
    (cmd_search (fun _ => none) 0 ("d") false c9Pages ("q") SortOrder.Relevance
        none 60).1 = .ok [sampleSummary, sampleSummary, sampleSummary] ∧
    (cmd_search (fun _ => none) 0 ("d") false c9Pages ("q") SortOrder.Relevance
        none 60).2.1 = 2 ∧
    searchLoopAux c9Pages 1 (pages_needed 1) 1 [] none 0 =
      ((c9Pages 1).products, some 3, 1) := by
  refine ⟨?_, ?_, ?_⟩
  · have := (C9_pagination.2.2.2.2.2.2 0 ("d") c9Pages ("q") SortOrder.Relevance none 60
      (by decide) (by decide) (by decide) (by decide)).1
    simpa using this
  · exact (C9_pagination.2.2.2.2.2.2 0 ("d") c9Pages ("q") SortOrder.Relevance none 60
      (by decide) (by decide) (by decide) (by decide)).2
  · have := C9_pagination.2.2.2.2.2.1 c9Pages 1 (by decide) (by decide)
    simpa using this

/-!
## C10: search cache hits and the limit
-/

/-- C10. On a search cache hit the stored product list is truncated to the
currently requested limit and returned with no page fetched; and because
the requested limit is not part of the search cache key, a later request
with the same query, sort and category but a larger limit hits the cache
entry written by an earlier smaller-limit request and returns that stored
(shorter) list unchanged, with no refetch — whatever pages a fresh fetch
would have produced. -/
theorem C10_cache_hit_truncation :
    (∀ (fs : String → Option (FsEntry SearchResult)) (now : ℕ) (dir : String)
      (pages : ℕ → SearchResult) (query : String) (sort : SortOrder)
      (category : Option String) (limit : ℕ) (cached : SearchResult),
      Cache.get_search (Cache.new dir false) fs now query sort category some =
        some cached →
      cmd_search fs now dir false pages query sort category limit =
        (.ok (cached.products.take limit), 0, fs)) ∧
    (∀ (fs : String → Option (FsEntry SearchResult)) (now : ℕ) (dir : String)
      (pages : ℕ → SearchResult) (query : String) (sort : SortOrder)
      (category : Option String) (limit₁ : ℕ),
      Cache.get_search (Cache.new dir false) fs now query sort category
        (some : SearchResult → Option SearchResult) = none →
      (searchLoopAux pages limit₁ (pages_needed limit₁) 1 [] none 0).1 ≠ [] →
      ∀ (pages2 : ℕ → SearchResult) (limit₂ : ℕ),
        ((searchLoopAux pages limit₁ (pages_needed limit₁) 1 []
            none 0).1.take limit₁).length ≤ limit₂ →
        cmd_search (cmd_search fs now dir false pages query sort category limit₁).2.2
            now dir false pages2 query sort category limit₂ =
          (.ok ((searchLoopAux pages limit₁ (pages_needed limit₁) 1 []
              none 0).1.take limit₁),
            0, (cmd_search fs now dir false pages query sort category limit₁).2.2)) := by
  constructor
  · intro fs now dir pages query sort category limit cached hhit
    unfold cmd_search
    simp only [hhit]
  · intro fs now dir pages query sort category limit₁ hmiss hne pages2 limit₂ hlen
    have hfs1 : (cmd_search fs now dir false pages query sort category limit₁).2.2 =
        Cache.set_search (Cache.new dir false) fs now query sort category
          ⟨query, (searchLoopAux pages limit₁ (pages_needed limit₁) 1 [] none 0).2.1,
            (searchLoopAux pages limit₁ (pages_needed limit₁) 1 [] none 0).1.take
              limit₁⟩ := by
      unfold cmd_search
      simp only [hmiss, ne_nil_isEmpty_false hne, Bool.false_eq_true, if_false]
    rw [hfs1]
    have hhit2 : Cache.get_search (Cache.new dir false)
        (Cache.set_search (Cache.new dir false) fs now query sort category
          ⟨query, (searchLoopAux pages limit₁ (pages_needed limit₁) 1 [] none 0).2.1,
            (searchLoopAux pages limit₁ (pages_needed limit₁) 1 [] none 0).1.take
              limit₁⟩) now query sort category some =
        some (⟨query, (searchLoopAux pages limit₁ (pages_needed limit₁) 1 [] none 0).2.1,
          (searchLoopAux pages limit₁ (pages_needed limit₁) 1 [] none 0).1.take
            limit₁⟩ : SearchResult) := by
      simp [Cache.get_search, Cache.new, Cache.set_search, write_cached, read_cached,
        SEARCH_TTL]
    unfold cmd_search
    simp only [hhit2]
    rw [List.take_of_length_le hlen]

/-- Witness for C10: a fetch with limit 1 caches one product; a follow-up
request with limit 5 (and arbitrary would-be pages) returns that single
cached product with zero pages fetched. -/
theorem C10_cache_hit_truncation_witness :
    cmd_search (cmd_search (fun _ => none) 0 ("d") false c9Pages ("q")
        SortOrder.Relevance none 1).2.2 0 ("d") false
        (fun _ => { query := "q", total_results := none, products := [] }) ("q")
        SortOrder.Relevance none 5 =
      (.ok [sampleSummary], 0,
        (cmd_search (fun _ => none) 0 ("d") false c9Pages ("q")
          SortOrder.Relevance none 1).2.2) := by
  have := C10_cache_hit_truncation.2 (fun _ => none) 0 ("d") c9Pages ("q")
    SortOrder.Relevance none 1 (by decide) (by decide)
    (fun _ => { query := "q", total_results := none, products := [] }) 5 (by decide)
  simpa using this

/-!
## C1: the original-price invariant
-/

theorem filter_lt_some {price x : ℚ} {o : Option ℚ}
    (h : Option.filter (fun op => decide (price < op)) o = some x) : price < x := by
  cases o with
  | none => simp [Option.filter] at h
  | some y =>
    by_cases hp : price < y
    · simp [Option.filter, hp] at h
      rw [← h]
      exact hp
    · simp [Option.filter, hp] at h

theorem offers_original_gt (offers : Option Json) :
    ∀ x, (extract_prices_from_offers offers).2.1 = some x →
      (extract_prices_from_offers offers).1 < x := by
  intro x hx
  cases offers with
  | none => simp [extract_prices_from_offers] at hx
  | some o =>
    unfold extract_prices_from_offers at hx ⊢
    cases htop : jGet o ("price") >>= jNumOrStr with
    | some p =>
      simp only [htop] at hx
      simp at hx
    | none =>
      simp only [htop] at hx ⊢
      cases harr : jGet o ("priceSpecification") >>= jAsArr with
      | none =>
        simp only [harr] at hx
        simp at hx
      | some specs =>
        simp only [harr] at hx ⊢
        exact filter_lt_some hx

theorem json_ld_original_gt (data : Json) (pid burl : String) (p : ProductDetail)
    (hp : parse_from_json_ld data pid burl = some p) :
    ∀ x, p.original_price = some x → p.price < x := by
  intro x hx
  unfold parse_from_json_ld at hp
  cases hname : jGet data ("name") >>= jAsStr with
  | none => simp [hname] at hp
  | some n =>
    simp only [hname, Option.bind_eq_bind, Option.some_bind] at hp
    split at hp
    · cases hp
    · simp only [Option.some.injEq] at hp
      rw [← hp] at hx
      have := offers_original_gt (jGet data ("offers")) x hx
      rw [← hp]
      exact this

theorem js_globals_original_none (g : Json) (pid burl cur : String) (p : ProductDetail)
    (hp : parse_from_js_globals g pid burl cur = some p) : p.original_price = none := by
  unfold parse_from_js_globals at hp
  simp only [] at hp
  split at hp
  · cases hp
  · simp only [Option.some.injEq] at hp
    rw [← hp]

theorem next_data_original_gt (data : Json) (pid burl : String) (p : ProductDetail)
    (hp : parse_from_next_data data pid burl = some p) :
    ∀ x, p.original_price = some x → p.price < x := by
  intro x hx
  unfold parse_from_next_data at hp
  cases h1 : jGet data ("props") with
  | none => simp [h1] at hp
  | some props0 =>
    simp only [h1, Option.bind_eq_bind, Option.some_bind] at hp
    cases h2 : jGet props0 ("pageProps") with
    | none => simp [h2] at hp
    | some props1 =>
      simp only [h2, Option.some_bind] at hp
      cases h3 : (jGet props1 ("product")) <|> (jGet props1 ("productData"))
          <|> (jGet props1 ("initialProduct")) with
      | none => simp [h3] at hp
      | some product =>
        simp only [h3, Option.some_bind] at hp
        split at hp
        · cases hp
        · simp only [Option.some.injEq] at hp
          rw [← hp] at hx
          rw [← hp]
          exact filter_lt_some hx

theorem summary_json_original_gt (item : Json) (burl : String) (p : ProductSummary)
    (hp : parse_product_summary_json item burl = some p) :
    ∀ x, p.original_price = some x → p.price < x := by
  intro x hx
  unfold parse_product_summary_json at hp
  simp only [Option.bind_eq_bind] at hp
  rw [Option.bind_eq_some] at hp
  obtain ⟨name, hname, hp⟩ := hp
  rw [Option.bind_eq_some] at hp
  obtain ⟨pid, hpid, hp⟩ := hp
  simp only [Option.some.injEq] at hp
  rw [← hp] at hx
  rw [← hp]
  exact filter_lt_some hx

theorem card_original_gt (card : Card) (burl cur : String) (p : ProductSummary)
    (hp : parse_card card burl cur = some p) :
    ∀ x, p.original_price = some x → p.price < x := by
  intro x hx
  unfold parse_card at hp
  simp only [] at hp
  split at hp
  · simp only [Option.some.injEq] at hp
    rw [← hp] at hx
    rw [← hp]
    exact filter_lt_some hx
  · cases hp

theorem prices_from_input_gt (dom : Dom) (pr : ℚ × Option ℚ)
    (hp : extract_prices_from_input dom = some pr) :
    ∀ x, pr.2 = some x → pr.1 < x := by
  intro x hx
  unfold extract_prices_from_input at hp
  cases hse : dom.shareEmail with
  | none => rw [hse] at hp; cases hp
  | some el =>
    rw [hse] at hp
    simp only [] at hp
    split at hp
    · rename_i disc list _ _
      split at hp
      · simp only [Option.some.injEq] at hp
        rw [← hp] at hx
        simp only [Option.some.injEq] at hx
        rw [← hp, ← hx]
        rename_i hdl
        exact of_decide_eq_true hdl
      · simp only [Option.some.injEq] at hp
        rw [← hp] at hx
        cases hx
    · simp only [Option.some.injEq] at hp
      rw [← hp] at hx
      cases hx
    · simp only [Option.some.injEq] at hp
      rw [← hp] at hx
      cases hx
    · cases hp

theorem parse_overview_original_gt (dom : Dom) (q : ProductDetail)
    (h : ∀ x, q.original_price = some x → q.price < x) :
    ∀ x, (parse_overview_sections dom q).original_price = some x →
      (parse_overview_sections dom q).price < x := by
  intro x hx
  have hcore := coreFields_parse_overview dom q
  have horig := congrArg (fun t => t.2.2) hcore
  have hprice := congrArg (fun t => t.2.1) hcore
  simp only [coreFields] at horig hprice
  rw [horig] at hx
  rw [hprice]
  exact h x hx

theorem parse_from_html_original_gt (dom : Dom) (pid burl cur : String)
    (p : ProductDetail) (hp : parse_from_html dom pid burl cur = .ok p) :
    ∀ x, p.original_price = some x → p.price < x := by
  intro x hx
  unfold parse_from_html at hp
  split at hp
  · cases hp
  · simp only [] at hp
    split at hp
    · cases hp
    · simp only [Except.ok.injEq] at hp
      rw [← hp] at hx
      rw [← hp]
      refine parse_overview_original_gt dom _ ?_ x hx
      intro y hy
      simp only [] at hy ⊢
      cases hin : extract_prices_from_input dom with
      | some pr =>
        simp only [hin] at hy ⊢
        exact prices_from_input_gt dom pr hin y hy
      | none =>
        simp only [hin] at hy
        cases hy

/-- C1 (amended). Every record produced directly by a structured parser
(JSON-LD, JS globals, page-data blob), by the DOM parser, or by either
search-summary parser satisfies the invariant: `original_price = Some x`
implies `x > price`, and a structured source reporting a list price at or
below the current price never populates `original_price` (the invariant's
contrapositive). The DOM enrichment pass, however, guarantees the
invariant only when the incoming price is zero or the DOM list price
(when one overrides) exceeds the incoming price: it can otherwise
set `original_price` to a DOM list price at or below the structural
price. The final conjunct ties the enrichment pass's pricing to the
reconciliation step. -/
theorem C1_original_price_invariant :
    (∀ (offers : Option Json) (x : ℚ),
      (extract_prices_from_offers offers).2.1 = some x →
      (extract_prices_from_offers offers).1 < x) ∧
    (∀ (data : Json) (pid burl : String) (p : ProductDetail),
      parse_from_json_ld data pid burl = some p →
      ∀ x, p.original_price = some x → p.price < x) ∧
    (∀ (g : Json) (pid burl cur : String) (p : ProductDetail),
      parse_from_js_globals g pid burl cur = some p → p.original_price = none) ∧
    (∀ (data : Json) (pid burl : String) (p : ProductDetail),
      parse_from_next_data data pid burl = some p →
      ∀ x, p.original_price = some x → p.price < x) ∧
    (∀ (dom : Dom) (pid burl cur : String) (p : ProductDetail),
      parse_from_html dom pid burl cur = .ok p →
      ∀ x, p.original_price = some x → p.price < x) ∧
    (∀ (item : Json) (burl : String) (p : ProductSummary),
      parse_product_summary_json item burl = some p →
      ∀ x, p.original_price = some x → p.price < x) ∧
    (∀ (card : Card) (burl cur : String) (p : ProductSummary),
      parse_card card burl cur = some p →
      ∀ x, p.original_price = some x → p.price < x) ∧
    (∀ (dom : Dom) (p : ProductDetail),
      (∀ x, p.original_price = some x → p.price < x) →
      (p.price = 0 ∨
        ∀ l, ((dom.shareEmail >>= fun el => el.listPrice) >>= parse_price_str) = some l →
          p.price < l) →
      ∀ x, (enrich_pricing dom p).original_price = some x →
        (enrich_pricing dom p).price < x) ∧
    (∀ (dom : Dom) (p : ProductDetail),
      (enrich_from_html dom p).price = (enrich_pricing dom (enrich_brand dom p)).price ∧
      (enrich_from_html dom p).original_price =
        (enrich_pricing dom (enrich_brand dom p)).original_price) := by
  refine ⟨offers_original_gt, json_ld_original_gt, js_globals_original_none,
    next_data_original_gt, parse_from_html_original_gt, summary_json_original_gt,
    card_original_gt, ?_, fun dom p => ⟨(enrich_from_html_core dom p).2.1,
      (enrich_from_html_core dom p).2.2⟩⟩
  intro dom p hinv hcond x hx
  unfold enrich_pricing at hx ⊢
  by_cases hguard : (p.original_price.isSome && decide (0 < p.price)) = true
  · rw [if_pos hguard] at hx ⊢
    exact hinv x hx
  · rw [if_neg hguard] at hx ⊢
    revert hx
    cases hse : dom.shareEmail with
    | none =>
      intro hx
      exact hinv x hx
    | some el =>
      simp only []
      cases hlp : el.listPrice >>= parse_price_str with
      | none =>
        cases hdp : el.discountPrice >>= parse_price_str with
        | none => intro hx; exact hinv x hx
        | some disc => intro hx; exact hinv x hx
      | some list =>
        cases hdp : el.discountPrice >>= parse_price_str with
        | none => intro hx; exact hinv x hx
        | some disc =>
          simp only []
          by_cases hdl : decide (disc < list) = true
          · rw [if_pos hdl]
            by_cases hnear :
                (decide (|p.price - list| < mkRat 1 100) || decide (p.price = 0)) = true
            · rw [if_pos hnear]
              intro hx
              simp only [Option.some.injEq] at hx
              rw [← hx]
              exact of_decide_eq_true hdl
            · rw [if_neg hnear]
              intro hx
              simp only [Option.some.injEq] at hx
              rw [← hx]
              rcases hcond with hzero | hlist
              · exact absurd (by simp [hzero]) hnear
              · exact hlist list (by rw [hse]; exact hlp)
          · rw [if_neg hdl]
            intro hx
            exact hinv x hx

/-- The JSON-LD block for the C1 counterexample: a flat price of 100. -/
def c1Json : Json := .obj [
  ("name", .str ("Vitamin D3")),
  ("offers", .obj [("price", .num 100), ("priceCurrency", .str ("USD"))])]

/-- The page DOM for the C1 counterexample: the hidden share-email input
reports list price 50 and discount price 40. -/
def c1Dom : Dom := { emptyDom with
  shareEmail := some { listPrice := some ("50"), discountPrice := some ("40") } }

/-- Counterexample for C1 as stated: run through the full extraction
pipeline (JSON-LD strategy plus DOM enrichment), the record ends with
`price = 100` and `original_price = Some 50`, violating
`original_price > price`, because `enrich_pricing` adopts the DOM list
price without comparing it to the structural price. -/
theorem C1_counterexample :
    (extract_product (some c1Json) none none c1Dom ("1") ("https://b")
        ("USD")).toOption.map (fun p => (p.price, p.original_price)) =
      some (100, some (mkRat 50 1)) ∧
    ¬((mkRat 50 1 : ℚ) > 100) := by
  constructor
  · decide
  · decide

/-- A minimal zero-priced record used to exercise the enrichment clause. -/
def c1Base : ProductDetail := {
  name := "N", brand := "", price := 0, original_price := none,
  currency := "USD", rating := none, review_count := none,
  product_url := "", product_id := "1", in_stock := true,
  description := none, product_code := none, upc := none,
  ingredients := none, supplement_facts := none, suggested_use := none,
  warnings := none, shipping_weight := none, category_breadcrumb := none,
  review_distribution := none }

/-- Witness for C1: the amended invariant applied at concrete inputs. -/
theorem C1_original_price_invariant_witness :
    (mkRat 1999 100 : ℚ) < mkRat 2499 100 ∧
    (enrich_pricing c1Dom (enrich_brand c1Dom c1Base)).price < (mkRat 50 1 : ℚ) := by
  constructor
  · have hof := offers_original_gt (some (.obj [("priceSpecification", .arr [
      .obj [("price", .str ("19.99"))],
      .obj [("price", .str ("24.99")),
        ("priceType", .str ("https://schema.org/StrikethroughPrice"))]])]))
      (mkRat 2499 100) (by decide)
    simpa using hof
  · have h := C1_original_price_invariant.2.2.2.2.2.2.2.1 c1Dom
      (enrich_brand c1Dom c1Base)
      (fun x hx => by
        rw [show (enrich_brand c1Dom c1Base).original_price = none from by decide] at hx
        cases hx)
      (Or.inl (by decide)) (mkRat 50 1) (by decide)
    exact h

/-!
## C2: flat price vs. priceSpecification in JSON-LD offers
-/

/-- A `priceSpecification` entry without a price type. -/
def normalSpec (v : Json) : Json := .obj [("price", v)]

/-- A `priceSpecification` entry marked as a strikethrough (list) price. -/
def strikeSpec (v : Json) : Json := .obj [("price", v),
  ("priceType", .str ("https://schema.org/StrikethroughPrice"))]

/-- An offers object with no flat price and a two-entry specification. -/
def specOnlyOffers (v₁ v₂ : Json) : Json :=
  .obj [("priceSpecification", .arr [normalSpec v₁, strikeSpec v₂])]

/-- C2 (amended). When a JSON-LD offers object contains both a flat price
field and a `priceSpecification` sub-structure, the flat price wins: it
becomes the current price and `original_price` is left empty. The
`priceSpecification` array is consulted only when the flat price is absent
or unparsable; there the non-strikethrough entry becomes the current price
and a strikethrough entry greater than the current price becomes the
original price. A price serialized as either a JSON string or a JSON
number is accepted in both places. -/
theorem C2_price_specification :
    (∀ (o : Json) (p : ℚ),
      jGet o ("price") >>= jNumOrStr = some p →
      extract_prices_from_offers (some o) =
        (p, none, (jGet o ("priceCurrency") >>= jAsStr).getD ("USD"))) ∧
    (∀ q : ℚ, jNumOrStr (.num q) = some q) ∧
    (∀ (s : String) (q : ℚ), parseF64 s = some q → jNumOrStr (.str s) = some q) ∧
    (∀ q₁ q₂ : ℚ,
      extract_prices_from_offers (some (specOnlyOffers (.num q₁) (.num q₂))) =
        (q₁, if q₁ < q₂ then some q₂ else none, "USD")) ∧
    (∀ (s₁ s₂ : String) (q₁ q₂ : ℚ), parseF64 s₁ = some q₁ → parseF64 s₂ = some q₂ →
      extract_prices_from_offers (some (specOnlyOffers (.str s₁) (.str s₂))) =
        (q₁, if q₁ < q₂ then some q₂ else none, "USD")) := by
  have hstrike : containsSubstr ("https://schema.org/StrikethroughPrice")
      ("StrikethroughPrice") = true := by decide
  refine ⟨?_, ?_, ?_, ?_, ?_⟩
  · intro o p hp
    unfold extract_prices_from_offers
    simp only [hp]
  · intro q
    rfl
  · intro s q hq
    simp [jNumOrStr, jAsStr, hq]
  · intro q₁ q₂
    by_cases h : q₁ < q₂ <;>
      simp [extract_prices_from_offers, specOnlyOffers, normalSpec, strikeSpec,
        jGet, jNumOrStr, jAsStr, jAsF64, jAsArr, Option.filter, hstrike, h]
  · intro s₁ s₂ q₁ q₂ h₁ h₂
    by_cases h : q₁ < q₂ <;>
      simp [extract_prices_from_offers, specOnlyOffers, normalSpec, strikeSpec,
        jGet, jNumOrStr, jAsStr, jAsF64, jAsArr, Option.filter, hstrike, h, h₁, h₂]

/-- The C2 counterexample offers object: a flat price of 19.99 next to a
specification whose strikethrough entry is 24.99. -/
def c2Offers : Json := .obj [
  ("price", .str ("19.99")),
  ("priceSpecification", .arr [
    .obj [("price", .str ("19.99")), ("priceCurrency", .str ("USD"))],
    .obj [("price", .str ("24.99")),
      ("priceType", .str ("https://schema.org/StrikethroughPrice"))]])]

/-- Counterexample for C2 as stated: with both a flat price and a
"current vs. list" specification present — the strikethrough 24.99
exceeding the current 19.99 — extraction returns the flat price and leaves
`original_price` empty instead of preferring the specification. -/
theorem C2_counterexample :
    extract_prices_from_offers (some c2Offers) = (mkRat 1999 100, none, "USD") ∧
    (mkRat 1999 100 : ℚ) < mkRat 2499 100 := by
  constructor
  · decide
  · decide

/-- Witness for C2: the amended behavior at concrete inputs. -/
theorem C2_price_specification_witness :
    extract_prices_from_offers (some c2Offers) =
      (mkRat 1999 100, none, "USD") ∧
    extract_prices_from_offers
        (some (specOnlyOffers (.str ("19.99")) (.str ("24.99")))) =
      (mkRat 1999 100, if (mkRat 1999 100 : ℚ) < mkRat 2499 100 then some (mkRat 2499 100)
        else none, "USD") := by
  constructor
  · have := C2_price_specification.1 c2Offers (mkRat 1999 100) (by decide)
    simpa using this
  · exact C2_price_specification.2.2.2.2 ("19.99") ("24.99") (mkRat 1999 100)
      (mkRat 2499 100) (by decide) (by decide)

/-!
## C3: the product-detail not-found gate
-/

theorem parse_overview_name (dom : Dom) (q : ProductDetail) :
    (parse_overview_sections dom q).name = q.name :=
  congrArg (fun t => t.1) (coreFields_parse_overview dom q)

/-- C3 (amended). The DOM product parser reports `ProductNotFound` for a
page with an explicit 404 marker, and also — even without any 404 marker —
when the product name is missing, empty, or the placeholder
`"Unknown Product"`. There is no gate on prices or review data: a page
with a usable name always yields a record, even with zero price, no
rating and no review count. -/
theorem C3_not_found_gate :
    (∀ (dom : Dom) (pid burl cur : String),
      is_not_found_page dom.html = true →
      parse_from_html dom pid burl cur = .error (.ProductNotFound pid)) ∧
    (∀ (dom : Dom) (pid burl cur : String),
      is_not_found_page dom.html = false →
      (dom.h1NameText = none ∨ dom.h1NameText = some ("") ∨
        dom.h1NameText = some ("Unknown Product")) →
      parse_from_html dom pid burl cur = .error (.ProductNotFound pid)) ∧
    (∀ (dom : Dom) (pid burl cur n : String),
      is_not_found_page dom.html = false →
      dom.h1NameText = some n → n ≠ "" → n ≠ "Unknown Product" →
      (parse_from_html dom pid burl cur).isOk = true) := by
  refine ⟨?_, ?_, ?_⟩
  · intro dom pid burl cur h404
    unfold parse_from_html
    rw [if_pos h404]
  · intro dom pid burl cur h404 hname
    unfold parse_from_html
    rw [if_neg (by simp [h404])]
    rcases hname with hcase | hcase | hcase <;>
      · rw [hcase]
        simp
  · intro dom pid burl cur n h404 hname hne hnu
    unfold parse_from_html
    rw [if_neg (by simp [h404])]
    rw [hname]
    rw [if_neg (by simp [hne, hnu])]
    rfl

/-- A page whose DOM has a usable name but no price, rating or review
data at all. -/
def c3Dom : Dom := { emptyDom with h1NameText := some ("Vitamin C") }

/-- Counterexample for C3 as stated: a record with zero price, no rating
and no review count — but a nonempty name — is returned as a successful
extraction, not as `ProductNotFound`; the claimed zero-price gate does not
exist in the code. -/
theorem C3_counterexample :
    (extract_product none none none c3Dom ("4") ("https://b") ("USD")).toOption.map
      (fun p => (p.name, p.price, p.rating, p.review_count)) =
      some ("Vitamin C", 0, none, none) := by
  decide

/-- Witness for C3: the name gates applied at concrete pages. -/
theorem C3_not_found_gate_witness :
    parse_from_html { emptyDom with html := "<title>404</title>" } ("9") ("b") ("USD") =
      .error (.ProductNotFound ("9")) ∧
    parse_from_html emptyDom ("9") ("b") ("USD") = .error (.ProductNotFound ("9")) ∧
    parse_from_html { emptyDom with h1NameText := some ("Unknown Product") } ("9") ("b")
      ("USD") = .error (.ProductNotFound ("9")) ∧
    (parse_from_html c3Dom ("9") ("b") ("USD")).isOk = true := by
  refine ⟨?_, ?_, ?_, ?_⟩
  · exact C3_not_found_gate.1 { emptyDom with html := "<title>404</title>" } ("9") ("b")
      ("USD") (by decide)
  · exact C3_not_found_gate.2.1 emptyDom ("9") ("b") ("USD") (by decide) (Or.inl (by decide))
  · exact C3_not_found_gate.2.1 { emptyDom with h1NameText := some ("Unknown Product") }
      ("9") ("b") ("USD") (by decide) (Or.inr (Or.inr (by decide)))
  · exact C3_not_found_gate.2.2 c3Dom ("9") ("b") ("USD") ("Vitamin C") (by decide)
      (by decide) (by decide) (by decide)

/-!
## C6: cascade ordering and empty-name fallthrough
-/

theorem parse_from_json_ld_name (data : Json) (pid burl n : String)
    (hn : jGet data ("name") >>= jAsStr = some n) (hne : n ≠ "") :
    (parse_from_json_ld data pid burl).map ProductDetail.name = some n := by
  unfold parse_from_json_ld
  simp only [hn, Option.bind_eq_bind, Option.some_bind]
  rw [if_neg hne]
  rfl

/-- C6. Cascade ordering: when the JSON-LD block carries a nonempty name,
the returned record's name is the JSON-LD name — whatever name the DOM
markup carries; with no structured source at all, the DOM-derived name is
used; each structured parser (JSON-LD, JS globals, page-data blob) refuses
to return a record whose name is empty; and when the JSON-LD parser
yields nothing, extraction behaves exactly as if the JSON-LD block were
absent (it falls through to the next strategy). -/
theorem C6_cascade_ordering :
    (∀ (j : Json) (g nd : Option Json) (dom : Dom) (pid burl cur n : String),
      jGet j ("name") >>= jAsStr = some n → n ≠ "" →
      (extract_product (some j) g nd dom pid burl cur).toOption.map
        ProductDetail.name = some n) ∧
    (∀ (dom : Dom) (pid burl cur n : String),
      is_not_found_page dom.html = false →
      dom.h1NameText = some n → n ≠ "" → n ≠ "Unknown Product" →
      (extract_product none none none dom pid burl cur).toOption.map
        ProductDetail.name = some n) ∧
    (∀ (j : Json) (pid burl : String) (p : ProductDetail),
      parse_from_json_ld j pid burl = some p → p.name ≠ "") ∧
    (∀ (g : Json) (pid burl cur : String) (p : ProductDetail),
      parse_from_js_globals g pid burl cur = some p → p.name ≠ "") ∧
    (∀ (d : Json) (pid burl : String) (p : ProductDetail),
      parse_from_next_data d pid burl = some p → p.name ≠ "") ∧
    (∀ (j : Json) (g nd : Option Json) (dom : Dom) (pid burl cur : String),
      parse_from_json_ld j pid burl = none →
      extract_product (some j) g nd dom pid burl cur =
        extract_product none g nd dom pid burl cur) := by
  refine ⟨?_, ?_, ?_, ?_, ?_, ?_⟩
  · intro j g nd dom pid burl cur n hn hne
    unfold extract_product
    cases hp : parse_from_json_ld j pid burl with
    | none =>
      exfalso
      have hmap := parse_from_json_ld_name j pid burl n hn hne
      rw [hp] at hmap
      cases hmap
    | some p =>
      have hname : p.name = n := by
        have hmap := parse_from_json_ld_name j pid burl n hn hne
        rw [hp] at hmap
        simpa using hmap
      simp only [Option.bind_eq_bind, Option.some_bind, hp]
      simp only [Except.toOption, Option.map]
      rw [(enrich_from_html_core dom p).1, hname]
  · intro dom pid burl cur n h404 hname hne hnu
    unfold extract_product
    simp only [Option.bind_eq_bind, Option.none_bind]
    unfold parse_from_html
    rw [if_neg (by simp [h404])]
    rw [hname]
    rw [if_neg (by simp [hne, hnu])]
    simp only [Except.toOption, Option.map, Option.getD]
    rw [parse_overview_name]
  · intro j pid burl p hp
    unfold parse_from_json_ld at hp
    simp only [Option.bind_eq_bind] at hp
    rw [Option.bind_eq_some] at hp
    obtain ⟨n, hn, hp⟩ := hp
    split at hp
    · cases hp
    · rename_i hne
      simp only [Option.some.injEq] at hp
      rw [← hp]
      exact hne
  · intro g pid burl cur p hp
    unfold parse_from_js_globals at hp
    simp only [] at hp
    split at hp
    · cases hp
    · rename_i hne
      simp only [Option.some.injEq] at hp
      rw [← hp]
      exact hne
  · intro d pid burl p hp
    unfold parse_from_next_data at hp
    simp only [Option.bind_eq_bind] at hp
    rw [Option.bind_eq_some] at hp
    obtain ⟨props0, h0, hp⟩ := hp
    rw [Option.bind_eq_some] at hp
    obtain ⟨props1, h1, hp⟩ := hp
    rw [Option.bind_eq_some] at hp
    obtain ⟨product, h2, hp⟩ := hp
    split at hp
    · cases hp
    · rename_i hne
      simp only [Option.some.injEq] at hp
      rw [← hp]
      exact hne
  · intro j g nd dom pid burl cur hp
    unfold extract_product
    simp only [Option.bind_eq_bind, Option.some_bind, Option.none_bind, hp]

/-- The JSON-LD block for the C6 witness. -/
def c6Json : Json := .obj [("name", .str ("JSON Name"))]

/-- A DOM whose markup disagrees with the JSON-LD on the product name. -/
def c6Dom : Dom := { emptyDom with h1NameText := some ("DOM Name") }

/-- Witness for C6: with both sources present the JSON-LD name wins; with
only the DOM present the DOM name is used; an empty JSON-LD name falls
through to the DOM. -/
theorem C6_cascade_ordering_witness :
    (extract_product (some c6Json) none none c6Dom ("1") ("b") ("USD")).toOption.map
      ProductDetail.name = some ("JSON Name") ∧
    (extract_product none none none c6Dom ("1") ("b") ("USD")).toOption.map
      ProductDetail.name = some ("DOM Name") ∧
    extract_product (some (.obj [("name", .str (""))])) none none c6Dom ("1") ("b")
      ("USD") = extract_product none none none c6Dom ("1") ("b") ("USD") := by
  refine ⟨?_, ?_, ?_⟩
  · exact C6_cascade_ordering.1 c6Json none none c6Dom ("1") ("b") ("USD") ("JSON Name")
      (by decide) (by decide)
  · exact C6_cascade_ordering.2.1 c6Dom ("1") ("b") ("USD") ("DOM Name") (by decide)
      (by decide) (by decide) (by decide)
  · exact C6_cascade_ordering.2.2.2.2.2 (.obj [("name", .str (""))]) none none c6Dom
      ("1") ("b") ("USD") (by decide)

end Iherb
